import Mathlib

/-!
# LinechartWidget

A shallow embedding of `src/ui/linechart/LinechartWidget.cc`: the translation between the
scrollbar value and the right edge of the plot window (the two overloads of
`setPlotWindowPosition`), the curve list kept by `appendData`, `addCurve` and
`createCurveItem`, the log written by `appendData`, the signal/slot wiring made by
`setActivePlot`, and the order of locking and emitting in `setPlotWindowPosition`.

Conventions of the embedding.

* `quint64` values are natural numbers; every `quint64` operation that can leave the range
  is followed by an explicit reduction modulo `2 ^ 64`.
* `int` values are integers.  Signed overflow is undefined in C++, so the embedding covers
  the executions without it; `IsInt` states that a value is in the range of `int`.
* `double` and `float` values are the rational numbers they denote.  Every operation on
  them is the exact operation followed by rounding to the nearest value of the format,
  ties to even: 53 significant bits for `double` (`roundDouble`), 24 for `float`
  (`roundFloat`).  The conversion of a `quint64` to `double` and of an `int` to `float`
  rounds in the same way; the conversion of an `int` to `double` is exact, since every
  `int` is a `double`.  Each operation is rounded on its own, in the format of its type:
  no fused multiply-add and no extended intermediate precision.  The exponent range is not
  bounded: the values of these computations neither overflow nor become subnormal.
* A call is described by the list of the effects it has on its collaborators, in program
  order (`Event`).
-/

namespace LinechartWidget

/-! ## Machine arithmetic -/

/-- The number of values of a `quint64`. -/
def quint64Size : Nat := 2 ^ 64

/-- Addition of two `quint64` values. -/
def add64 (a b : Nat) : Nat := (a + b) % quint64Size

/-- Subtraction of two `quint64` values. -/
def sub64 (a b : Nat) : Nat := (a + (quint64Size - b % quint64Size)) % quint64Size

/-- The value is in the range of a 32-bit `int`. -/
def IsInt (n : Int) : Prop := -2 ^ 31 ≤ n ∧ n < 2 ^ 31

instance (n : Int) : Decidable (IsInt n) := by
  unfold IsInt; infer_instance

/-- Conversion of a `double` to an integer type discards the fractional part
(truncation toward zero). -/
def truncate (x : ℚ) : Int := if 0 ≤ x then ⌊x⌋ else ⌈x⌉

/-- Conversion of a `double` to `quint64`.  C++ defines the result only when the truncated
value is in the range of `quint64`; the reduction modulo `2 ^ 64` fixes a value elsewhere,
and the theorems below state where they need the conversion to be in range. -/
def toQuint64 (x : ℚ) : Nat := (truncate x % (quint64Size : Int)).toNat

/-! ## Binary floating-point rounding -/

/-- The integer nearest to `x`, ties to even. -/
def roundHalfEven (x : ℚ) : Int :=
  if x - (⌊x⌋ : ℚ) < 1 / 2 then ⌊x⌋
  else if 1 / 2 < x - (⌊x⌋ : ℚ) then ⌊x⌋ + 1
  else if ⌊x⌋ % 2 = 0 then ⌊x⌋ else ⌊x⌋ + 1

/-- Rounding to the nearest value with `prec` significant bits, ties to even: with
`2 ^ l <= |x| < 2 ^ (l + 1)` the unit in the last place is `2 ^ (l - (prec - 1))`, and `x`
is rounded to the nearest multiple of it. -/
def roundBinary (prec : Nat) (x : ℚ) : ℚ :=
  (roundHalfEven (x / (2 : ℚ) ^ (Int.log 2 |x| - ((prec : Int) - 1))) : ℚ)
    * (2 : ℚ) ^ (Int.log 2 |x| - ((prec : Int) - 1))

/-- Rounding of an exact result to `double` (binary64). -/
def roundDouble (x : ℚ) : ℚ := roundBinary 53 x

/-- Rounding of an exact result to `float` (binary32). -/
def roundFloat (x : ℚ) : ℚ := roundBinary 24 x

/-! ## The active plot as seen by `setPlotWindowPosition` -/

/-- The three `quint64` values that the two overloads of `setPlotWindowPosition` read from
the active plot through `getMinTime()`, `getPlotInterval()` and `getDataInterval()`.
`LinechartPlot` is not part of the sources, so the values its getters return are taken as
they are. -/
structure PlotTimes where
  minTime : Nat
  plotInterval : Nat
  dataInterval : Nat
  deriving DecidableEq, Repr

/-- The three readings are `quint64` values. -/
def PlotTimes.IsQuint64 (p : PlotTimes) : Prop :=
  p.minTime < quint64Size ∧ p.plotInterval < quint64Size ∧ p.dataInterval < quint64Size

instance (p : PlotTimes) : Decidable p.IsQuint64 := by
  unfold PlotTimes.IsQuint64; infer_instance

/-- Effects of the two overloads of `setPlotWindowPosition`, in program order. -/
inductive Event where
  /-- The call `plotWindowLock.lockForWrite()`. -/
  | lockForWrite
  /-- The call `plotWindowLock.unlock()`. -/
  | unlock
  /-- The call `activePlot->setAutoScroll(enabled)`. -/
  | setAutoScroll (enabled : Bool)
  /-- The call `scrollbar->setDisabled(disabled)`. -/
  | setDisabled (disabled : Bool)
  /-- The statement `emit plotWindowPositionUpdated(rightPosition)` of the `quint64`
  signal: the request to move the right edge of the plot window. -/
  | plotWindowPositionUpdated_quint64 (rightPosition : Nat)
  /-- The statement `emit plotWindowPositionUpdated(value)` of the `int` signal: the
  request to set the scrollbar. -/
  | plotWindowPositionUpdated_int (value : Int)
  deriving DecidableEq, Repr

/-- The literal `0.01f` of line 473: the `float` nearest to `1 / 100`. -/
def autoFollowFraction : ℚ := roundFloat (1 / 100)

/-- The condition of line 473:
`scrollBarValue > MAX_TIME_SCROLLBAR_VALUE - (MAX_TIME_SCROLLBAR_VALUE - MIN_TIME_SCROLLBAR_VALUE) * 0.01f`.
The difference `MAX - MIN` is an `int`; it is converted to `float` and multiplied by
`0.01f`, `MAX` is converted to `float` for the subtraction and `scrollBarValue` for the
comparison. -/
def atRightEdge (MIN MAX scrollBarValue : Int) : Prop :=
  roundFloat (scrollBarValue : ℚ)
    > roundFloat (roundFloat (MAX : ℚ)
        - roundFloat (roundFloat ((MAX - MIN : Int) : ℚ) * autoFollowFraction))

instance (MIN MAX scrollBarValue : Int) : Decidable (atRightEdge MIN MAX scrollBarValue) := by
  unfold atRightEdge; infer_instance

/-- The value of `rightPosition` computed in lines 477-485 from the relative scrollbar
position `position`, a `double`.  In line 481 the `quint64` `scrollInterval` is converted
to `double` and multiplied by `position`, the `quint64` sum
`getMinTime() + getPlotInterval()` is converted to `double` and added, and the `double`
sum is converted to `quint64`. -/
def rightPosition (activePlot : PlotTimes) (position : ℚ) : Nat :=
  if activePlot.dataInterval > activePlot.plotInterval then
    let scrollInterval : Nat := sub64 activePlot.dataInterval activePlot.plotInterval
    toQuint64 (roundDouble
      (roundDouble ((add64 activePlot.minTime activePlot.plotInterval : Nat) : ℚ)
        + roundDouble (roundDouble (scrollInterval : ℚ) * position)))
  else
    add64 activePlot.minTime activePlot.plotInterval

/-- The value of `position` computed in line 469:
`(static_cast<double>(scrollBarValue) - MIN_TIME_SCROLLBAR_VALUE) / scrollBarRange`, a
`double` subtraction followed by a `double` division. -/
def scrollBarPosition (MIN MAX scrollBarValue : Int) : ℚ :=
  let scrollBarRange : Int := MAX - MIN
  roundDouble (roundDouble ((scrollBarValue : ℚ) - (MIN : ℚ)) / (scrollBarRange : ℚ))

/-- `LinechartWidget::setPlotWindowPosition(int scrollBarValue)`, lines 465-501.
`MIN` and `MAX` are the constants `MIN_TIME_SCROLLBAR_VALUE` and
`MAX_TIME_SCROLLBAR_VALUE` of `LinechartWidget.h`, which is not part of the sources. -/
def setPlotWindowPosition_int (MIN MAX : Int) (activePlot : PlotTimes)
    (scrollBarValue : Int) : List Event :=
  let position : ℚ := scrollBarPosition MIN MAX scrollBarValue
  [Event.lockForWrite]
    ++ (if atRightEdge MIN MAX scrollBarValue then
          [Event.setAutoScroll true]
        else
          [Event.setAutoScroll false,
           Event.plotWindowPositionUpdated_quint64 (rightPosition activePlot position)])
    ++ [Event.unlock]

/-- The branch of lines 517-528 of `setPlotWindowPosition(quint64)`: the argument passed to
`scrollbar->setDisabled` and the value of `pos`.  In line 524 the `quint64`
`scrollInterval` and the `quint64` difference `getDataInterval() - getPlotInterval()` are
converted to `double` and divided. -/
def relativePosition (activePlot : PlotTimes) (position : Nat) : Bool × ℚ :=
  if activePlot.dataInterval > activePlot.plotInterval then
    let scrollInterval : Nat :=
      sub64 (sub64 position activePlot.minTime) activePlot.plotInterval
    (false, roundDouble (roundDouble (scrollInterval : ℚ)
      / roundDouble ((sub64 activePlot.dataInterval activePlot.plotInterval : Nat) : ℚ)))
  else
    (true, 1)

/-- `LinechartWidget::setPlotWindowPosition(quint64 position)`, lines 511-532.  In line
531 `pos` is multiplied by the `int` difference `MAX - MIN` as a `double`, and the product
is converted to `int`. -/
def setPlotWindowPosition_quint64 (MIN MAX : Int) (activePlot : PlotTimes)
    (position : Nat) : List Event :=
  let branch := relativePosition activePlot position
  [Event.lockForWrite,
   Event.setDisabled branch.1,
   Event.unlock,
   Event.plotWindowPositionUpdated_int
     (truncate (roundDouble (branch.2 * ((MAX - MIN : Int) : ℚ))))]

/-! ## Reading a list of effects -/

/-- The right edges carried by the reposition requests of a call, in order. -/
def repositionRequests : List Event → List Nat
  | [] => []
  | Event.plotWindowPositionUpdated_quint64 p :: es => p :: repositionRequests es
  | _ :: es => repositionRequests es

/-- The values carried by the scrollbar requests of a call, in order. -/
def scrollbarRequests : List Event → List Int
  | [] => []
  | Event.plotWindowPositionUpdated_int v :: es => v :: scrollbarRequests es
  | _ :: es => scrollbarRequests es

/-- The arguments of the calls of `setAutoScroll`, in order. -/
def autoScrollCalls : List Event → List Bool
  | [] => []
  | Event.setAutoScroll b :: es => b :: autoScrollCalls es
  | _ :: es => autoScrollCalls es

/-- The arguments of the calls of `scrollbar->setDisabled`, in order. -/
def setDisabledCalls : List Event → List Bool
  | [] => []
  | Event.setDisabled b :: es => b :: setDisabledCalls es
  | _ :: es => setDisabledCalls es

/-! ## Reference definitions that follow the specification -/

/-- The operations of the collaborators that `appendData`, `addCurve`, `createCurveItem`
and `setActivePlot` call.  `LinechartPlot` and the Qt string formatting are not part of the
sources, so they are parameters of the embedding: `Plot` is the state of one
`LinechartPlot` object.  Signals that a collaborator emits while one of its operations runs
are not delivered inside the call. -/
structure Collaborators (Plot : Type) where
  /-- The constructor `new LinechartPlot(ui.diagramGroupBox, plotid)`. -/
  create : Int → Plot
  /-- The call `plot->appendData(curve, usec, value)`. -/
  appendData : Plot → String → Nat → ℚ → Plot
  /-- The call `plot->getMean(curve)`. -/
  getMean : Plot → String → ℚ
  /-- The call `plot->getMedian(curve)`. -/
  getMedian : Plot → String → ℚ
  /-- The call `plot->isVisible(curve)`. -/
  isVisible : Plot → String → Bool
  /-- The call `plot->setVisible(curve, visible)`. -/
  setVisible : Plot → String → Bool → Plot
  /-- The call `plot->getColorForCurve(curve)`; `none` is an invalid colour. -/
  getColorForCurve : Plot → String → Option (Nat × Nat × Nat)
  /-- The call `plot->setAutoScroll(enabled)`. -/
  setAutoScroll : Plot → Bool → Plot
  /-- The call `plot->getAverageWindow()`. -/
  getAverageWindow : Plot → Int
  /-- The call `plot->setAverageWindow(windowSize)`. -/
  setAverageWindow : Plot → Int → Plot
  /-- The text `str.sprintf("%+.2f", x)`. -/
  sprintf2 : ℚ → String
  /-- The text `QString::number(x)` of a `double`. -/
  number : ℚ → String

/-- The value `map->value(key)` of a `QMap`, `none` when the key is absent (the default
value `NULL` of `curveLabels->value(curve, NULL)`). -/
def qmapValue {K V : Type} [DecidableEq K] (m : List (K × V)) (key : K) : Option V :=
  (m.find? (fun e => e.1 = key)).map Prod.snd

/-- The call `map->insert(key, value)` of a `QMap`: the value of an existing key is
replaced. -/
def qmapInsert {K V : Type} [DecidableEq K] (m : List (K × V)) (key : K) (value : V) :
    List (K × V) :=
  m.filter (fun e => e.1 ≠ key) ++ [(key, value)]

/-- The call `map->contains(key)` of a `QMap`. -/
def qmapContains {K V : Type} [DecidableEq K] (m : List (K × V)) (key : K) : Bool :=
  m.any (fun e => e.1 = key)

/-- The number of entries a map holds for a key. -/
def qmapCount {K V : Type} [DecidableEq K] (m : List (K × V)) (key : K) : Nat :=
  m.countP (fun e => e.1 = key)

/-- The call `labels->value(curve)->setText(text)`: the label stored for the curve gets a
new text. -/
def setText (labels : List (String × String)) (curve : String) (text : String) :
    List (String × String) :=
  labels.map (fun e => if e.1 = curve then (e.1, text) else e)

/-- The signal/slot pairs between the widget, its scaling buttons and a plot. -/
inductive Wire where
  /-- From `this, curveRemoved(QString)` to `plot, hideCurve(QString)`. -/
  | curveRemoved_hideCurve
  /-- From `this, curveSet(QString, int)` to `plot, showCurve(QString, int)`. -/
  | curveSet_showCurve
  /-- From `plot, curveAdded(int, QString)` to `this, addCurve(int, QString)`. -/
  | curveAdded_addCurve
  /-- From `plot, curveRemoved(int, QString)` to `this, removeCurve(int, QString)`. -/
  | curveRemoved_removeCurve
  /-- From `plot, windowPositionChanged(quint64)` to
  `this, setPlotWindowPosition(quint64)`. -/
  | windowPositionChanged_setPlotWindowPosition
  /-- From `this, plotWindowPositionUpdated(quint64)` to
  `plot, setWindowPosition(quint64)`. -/
  | plotWindowPositionUpdated_setWindowPosition
  /-- From `scalingLinearButton, clicked()` to `plot, setLinearScaling()`. -/
  | scalingLinearButton_setLinearScaling
  /-- From `scalingLogButton, clicked()` to `plot, setLogarithmicScaling()`. -/
  | scalingLogButton_setLogarithmicScaling
  /-- From `this, curveVisible(QString, bool)` to `plot, setVisible(QString, bool)`, made
  by `createCurveItem`. -/
  | curveVisible_setVisible
  deriving DecidableEq, Repr

/-- A connection between the widget and the plot of one source id. -/
structure Connection where
  wire : Wire
  plotId : Int
  deriving DecidableEq, Repr

/-- The call `connect(...)`: Qt adds a connection, also when an equal one exists. -/
def connect (connections : List Connection) (c : Connection) : List Connection :=
  connections ++ [c]

/-- The call `disconnect(...)`: Qt removes every connection with this sender, signal,
receiver and slot. -/
def disconnect (connections : List Connection) (c : Connection) : List Connection :=
  connections.filter (fun d => d ≠ c)

/-- The eight signal/slot pairs of `setActivePlot`, in the order of lines 413-420 and of
lines 436-453. -/
def activePlotWires : List Wire :=
  [Wire.curveRemoved_hideCurve, Wire.curveSet_showCurve, Wire.curveAdded_addCurve,
   Wire.curveRemoved_removeCurve, Wire.windowPositionChanged_setPlotWindowPosition,
   Wire.plotWindowPositionUpdated_setWindowPosition,
   Wire.scalingLinearButton_setLinearScaling, Wire.scalingLogButton_setLogarithmicScaling]

/-- A call made on `logFile`. -/
inductive LogCall where
  /-- The call `logFile->write(data)`. -/
  | write (data : String)
  /-- The call `logFile->flush()`. -/
  | flush
  deriving DecidableEq, Repr

/-- The row that `createCurveItem` builds for a curve: the object name of its check box,
the text of its name label, the state of the check box and the colour of its icon. -/
structure CurveItem where
  objectName : String
  label : String
  checked : Bool
  iconColor : Option (Nat × Nat × Nat)
  deriving DecidableEq, Repr

/-- The state of a `LinechartWidget`.  A `LinechartPlot*` is the key under which `plots`
holds the plot; this is the id the plot was constructed with, which `getPlotId()`
returns.  A `QLabel*` stored in a map is the text of the label.  `logFile` lists the calls
made on the log file. -/
structure Widget (Plot : Type) where
  plots : List (Int × Plot)
  activePlot : Option Int
  plotContainer : Option Int
  curveLabels : List (String × String)
  curveMeans : List (String × String)
  curveMedians : List (String × String)
  curvesWidgetLayout : List CurveItem
  connections : List Connection
  averageSpinBox : Int
  logging : Bool
  logFile : List LogCall

/-- The widget after its constructor (lines 52-90 and `createLayout`): no plot, no curve,
no connection to a plot, the averaging spin box at `2`, logging off. -/
def Widget.initial (Plot : Type) : Widget Plot :=
  { plots := [], activePlot := none, plotContainer := none, curveLabels := [],
    curveMeans := [], curveMedians := [], curvesWidgetLayout := [], connections := [],
    averageSpinBox := 2, logging := false, logFile := [] }

/-- `LinechartWidget::getPlot(int plotid)`, lines 379-385, as far as it changes the
widget: the plot is created when `plots` does not contain it. -/
def getPlot {Plot : Type} (ops : Collaborators Plot) (w : Widget Plot) (plotid : Int) :
    Widget Plot :=
  if qmapContains w.plots plotid then w
  else { w with plots := qmapInsert w.plots plotid (ops.create plotid) }

/-- The plot object behind the pointer that `getPlot(plotid)` returns. -/
def plotAt {Plot : Type} (ops : Collaborators Plot) (w : Widget Plot) (plotid : Int) : Plot :=
  (qmapValue w.plots plotid).getD (ops.create plotid)

/-- A call that changes the plot object behind a pointer. -/
def updatePlot {Plot : Type} (w : Widget Plot) (plotid : Int) (f : Plot → Plot) :
    Widget Plot :=
  { w with plots := w.plots.map (fun e => if e.1 = plotid then (e.1, f e.2) else e) }

/-- `LinechartWidget::setAverageWindow(int windowSize)`, lines 254-257. -/
def setAverageWindow {Plot : Type} (ops : Collaborators Plot) (w : Widget Plot)
    (windowSize : Int) : Widget Plot :=
  if windowSize > 1 then
    match w.activePlot with
    | some id => updatePlot w id (fun pl => ops.setAverageWindow pl windowSize)
    | none => w
  else w

/-- The call `averageSpinBox->setValue(value)`: the spin box bounds the value by its
minimum `2` (line 142) and its maximum `99` (the default of `QSpinBox`), and when its
value changes it emits `valueChanged(int)`, which line 145 connects to
`setAverageWindow(int)`. -/
def averageSpinBox_setValue {Plot : Type} (ops : Collaborators Plot) (w : Widget Plot)
    (value : Int) : Widget Plot :=
  let bounded : Int := max 2 (min 99 value)
  if bounded = w.averageSpinBox then w
  else setAverageWindow ops { w with averageSpinBox := bounded } bounded

/-- Lines 406-420 of `setActivePlot`: an active plot is made sure of and the eight
connections to it are removed. -/
def removeCurrentPlot {Plot : Type} (ops : Collaborators Plot) (w : Widget Plot)
    (uasId : Int) : Widget Plot :=
  let w1 : Widget Plot :=
    if w.activePlot = none then { getPlot ops w uasId with activePlot := some uasId } else w
  match w1.activePlot with
  | some current =>
    { w1 with connections :=
        activePlotWires.foldl (fun cs wire => disconnect cs ⟨wire, current⟩) w1.connections }
  | none => w1

/-- Lines 423-453 of `setActivePlot`: the plot of `uasId` becomes the active plot, gets
automatic scrolling, sets the averaging spin box and is connected. -/
def addNewPlot {Plot : Type} (ops : Collaborators Plot) (w : Widget Plot) (uasId : Int) :
    Widget Plot :=
  let w1 : Widget Plot := { getPlot ops w uasId with activePlot := some uasId }
  let w2 : Widget Plot := { w1 with plotContainer := some uasId }
  let w3 : Widget Plot := updatePlot w2 uasId (fun pl => ops.setAutoScroll pl true)
  let w4 : Widget Plot := averageSpinBox_setValue ops w3 (ops.getAverageWindow (plotAt ops w3 uasId))
  { w4 with connections :=
      activePlotWires.foldl (fun cs wire => connect cs ⟨wire, uasId⟩) w4.connections }

/-- `LinechartWidget::setActivePlot(int uasId)`, lines 400-455. -/
def setActivePlot {Plot : Type} (ops : Collaborators Plot) (w : Widget Plot) (uasId : Int) :
    Widget Plot :=
  if w.activePlot = none ∨ w.activePlot ≠ some uasId then
    addNewPlot ops (removeCurrentPlot ops w uasId) uasId
  else w

/-- `LinechartWidget::createCurveItem(LinechartPlot* plot, QString curve)`, lines 276-361:
the row is built, the three labels are entered in the maps (the value and mean labels show
`0`, the median label is empty), the widget is connected to the plot and the curve is made
invisible.  The result is the widget together with the row. -/
def createCurveItem {Plot : Type} (ops : Collaborators Plot) (w : Widget Plot) (plot : Int)
    (curve : String) : Widget Plot × CurveItem :=
  let color := ops.getColorForCurve (plotAt ops w plot) curve
  let w1 : Widget Plot := { w with curveLabels := qmapInsert w.curveLabels curve "0" }
  let w2 : Widget Plot := { w1 with curveMeans := qmapInsert w1.curveMeans curve "0" }
  let w3 : Widget Plot := { w2 with curveMedians := qmapInsert w2.curveMedians curve "" }
  let w4 : Widget Plot :=
    { w3 with connections := connect w3.connections ⟨Wire.curveVisible_setVisible, plot⟩ }
  let w5 : Widget Plot := updatePlot w4 plot (fun pl => ops.setVisible pl curve false)
  (w5, { objectName := curve, label := curve, checked := false, iconColor := color })

/-- `LinechartWidget::addCurve(int uasid, QString curve)`, lines 271-274. -/
def addCurve {Plot : Type} (ops : Collaborators Plot) (w : Widget Plot) (uasid : Int)
    (curve : String) : Widget Plot :=
  let w1 := getPlot ops w uasid
  let r := createCurveItem ops w1 uasid curve
  { r.1 with curvesWidgetLayout := r.1.curvesWidgetLayout ++ [r.2] }

/-- The conversion `toLatin1()`: a character outside Latin-1 becomes `?`. -/
def toLatin1 (s : String) : String :=
  s.map (fun c => if c.toNat < 256 then c else '?')

/-- Lines 175-177 of `appendData`: the sample is appended to the plot of `uasId` and an
active plot is made sure of. -/
def appendToPlot {Plot : Type} (ops : Collaborators Plot) (w : Widget Plot) (uasId : Int)
    (curve : String) (value : ℚ) (usec : Nat) : Widget Plot :=
  let w1 := getPlot ops w uasId
  let w2 := updatePlot w1 uasId (fun pl => ops.appendData pl curve usec value)
  if w2.activePlot = none then setActivePlot ops w2 uasId else w2

/-- Lines 175-193 of `appendData`: after the sample is appended to the plot, the row of the
curve is created when `curveLabels` has no label for it, and the three labels of the curve
are updated. -/
def updateCurveList {Plot : Type} (ops : Collaborators Plot) (w : Widget Plot) (uasId : Int)
    (curve : String) (value : ℚ) (usec : Nat) : Widget Plot :=
  let w3 := appendToPlot ops w uasId curve value usec
  let w4 := if (qmapValue w3.curveLabels curve).isNone then addCurve ops w3 uasId curve else w3
  let w5 : Widget Plot :=
    { w4 with curveLabels := setText w4.curveLabels curve (ops.sprintf2 value) }
  let w6 : Widget Plot :=
    { w5 with curveMeans :=
        setText w5.curveMeans curve (ops.sprintf2 (ops.getMean (plotAt ops w5 uasId) curve)) }
  { w6 with curveMedians :=
      setText w6.curveMedians curve (ops.sprintf2 (ops.getMedian (plotAt ops w6 uasId) curve)) }

/-- The text that line 200 of `appendData` passes to `logFile->write`. -/
def logLine {Plot : Type} (ops : Collaborators Plot) (uasId : Int) (curve : String)
    (value : ℚ) (usec : Nat) : String :=
  toLatin1 (toString usec ++ "\t" ++ toString uasId ++ "\t" ++ curve ++ "\t"
    ++ ops.number value ++ "\n")

/-- Lines 195-203 of `appendData`: the log of the sample. -/
def logData {Plot : Type} (ops : Collaborators Plot) (w : Widget Plot) (uasId : Int)
    (curve : String) (value : ℚ) (usec : Nat) : Widget Plot :=
  if w.logging then
    if ops.isVisible (plotAt ops w uasId) curve then
      { w with logFile :=
          w.logFile ++ [LogCall.write (logLine ops uasId curve value usec), LogCall.flush] }
    else w
  else w

/-- `LinechartWidget::appendData(int uasId, QString curve, double value, quint64 usec)`,
lines 172-204. -/
def appendData {Plot : Type} (ops : Collaborators Plot) (w : Widget Plot) (uasId : Int)
    (curve : String) (value : ℚ) (usec : Nat) : Widget Plot :=
  logData ops (updateCurveList ops w uasId curve value usec) uasId curve value usec

/-- The connections of the eight kinds that `setActivePlot` makes. -/
def plotWiring {Plot : Type} (w : Widget Plot) : List Connection :=
  w.connections.filter (fun c => c.wire ∈ activePlotWires)

/-- The widget states that calls of `setActivePlot(int)` and of `appendData` reach from
the state after the constructor. -/
inductive Reachable {Plot : Type} (ops : Collaborators Plot) : Widget Plot → Prop where
  /-- The state after the constructor. -/
  | initial : Reachable ops (Widget.initial Plot)
  /-- A call of `setActivePlot(uasId)`. -/
  | setActivePlot (w : Widget Plot) (uasId : Int) :
      Reachable ops w → Reachable ops (setActivePlot ops w uasId)
  /-- A call of `appendData(uasId, curve, value, usec)`. -/
  | appendData (w : Widget Plot) (uasId : Int) (curve : String) (value : ℚ) (usec : Nat) :
      Reachable ops w → Reachable ops (appendData ops w uasId curve value usec)

/-- The curve list of a widget: the three label maps and the rows. -/
def curveList {Plot : Type} (w : Widget Plot) :
    List (String × String) × List (String × String) × List (String × String)
      × List CurveItem :=
  (w.curveLabels, w.curveMeans, w.curveMedians, w.curvesWidgetLayout)

/-- The log state of a widget. -/
def logState {Plot : Type} (w : Widget Plot) : Bool × List LogCall :=
  (w.logging, w.logFile)

/-- The curve list of a widget without the texts of the labels: the curves that have a
label in each of the three maps, and the rows. -/
def curveRows {Plot : Type} (w : Widget Plot) :
    List String × List String × List String × List CurveItem :=
  (w.curveLabels.map Prod.fst, w.curveMeans.map Prod.fst, w.curveMedians.map Prod.fst,
    w.curvesWidgetLayout)

/-- The wiring invariant: the connections of the eight kinds are exactly the eight
connections to the active plot, each once, and there is none without an active plot. -/
def WiredToActivePlot {Plot : Type} (w : Widget Plot) : Prop :=
  plotWiring w
    = match w.activePlot with
      | none => []
      | some id => activePlotWires.map (fun wire => (⟨wire, id⟩ : Connection))

/-! ## A collaborator for concrete inputs -/

/-- Modelled from the spec: a plotting collaborator for one source, which keeps the samples
appended to it, the curves that are visible, the automatic scrolling flag and the size of
the averaging window.  The sources of `LinechartPlot` are not part of src; the theorems
hold for every collaborator, and this one serves to apply them to concrete inputs. -/
structure RecordingPlot where
  plotId : Int
  samples : List (String × Nat × ℚ)
  visibleCurves : List String
  autoScroll : Bool
  averageWindow : Int
  deriving DecidableEq

/-- The values of the last `averageWindow` samples of a curve. -/
def RecordingPlot.window (pl : RecordingPlot) (curve : String) : List ℚ :=
  let values := (pl.samples.filter (fun s => s.1 = curve)).map (fun s => s.2.2)
  values.drop (values.length - pl.averageWindow.toNat)

/-- The text of a rational number with a sign and two decimal digits, rounded down in
magnitude. -/
def signedFixed2 (x : ℚ) : String :=
  let hundredths : Nat := ⌊|x| * 100⌋.toNat
  (if x < 0 then "-" else "+") ++ toString (hundredths / 100) ++ "."
    ++ toString (hundredths % 100 / 10) ++ toString (hundredths % 10)

/-- Modelled from the spec: the operations of `RecordingPlot`.  The mean is the mean of the
averaging window, the median its middle value; no colour is assigned; numbers are shown by
`signedFixed2`. -/
def recordingPlot : Collaborators RecordingPlot where
  create := fun plotid =>
    { plotId := plotid, samples := [], visibleCurves := [], autoScroll := true,
      averageWindow := 2 }
  appendData := fun pl curve usec value =>
    { pl with samples := pl.samples ++ [(curve, usec, value)] }
  getMean := fun pl curve =>
    (pl.window curve).sum / ((pl.window curve).length : ℚ)
  getMedian := fun pl curve =>
    ((pl.window curve).insertionSort (fun a b => a ≤ b)).getD ((pl.window curve).length / 2) 0
  isVisible := fun pl curve => decide (curve ∈ pl.visibleCurves)
  setVisible := fun pl curve visible =>
    { pl with visibleCurves :=
        if visible then curve :: pl.visibleCurves.filter (fun c => c ≠ curve)
        else pl.visibleCurves.filter (fun c => c ≠ curve) }
  getColorForCurve := fun _ _ => none
  setAutoScroll := fun pl enabled => { pl with autoScroll := enabled }
  getAverageWindow := fun pl => pl.averageWindow
  setAverageWindow := fun pl windowSize => { pl with averageWindow := windowSize }
  sprintf2 := signedFixed2
  number := signedFixed2

/-! ## The lock discipline of a list of effects -/

/-- Whether one of the two `plotWindowPositionUpdated` notifications is emitted while
`plotWindowLock` is held, that is between a `lockForWrite` and the next `unlock`; `held`
tells whether the lock is held before the first effect of the list. -/
def emitsWhileLocked : Bool → List Event → Bool
  | _, [] => false
  | _, Event.lockForWrite :: es => emitsWhileLocked true es
  | _, Event.unlock :: es => emitsWhileLocked false es
  | held, Event.plotWindowPositionUpdated_quint64 _ :: es => held || emitsWhileLocked held es
  | held, Event.plotWindowPositionUpdated_int _ :: es => held || emitsWhileLocked held es
  | held, Event.setAutoScroll _ :: es => emitsWhileLocked held es
  | held, Event.setDisabled _ :: es => emitsWhileLocked held es

/-! # Theorems -/

/-! ## Rounding -/

theorem roundHalfEven_intCast (n : Int) : roundHalfEven (n : ℚ) = n := by
  simp [roundHalfEven]

theorem roundHalfEven_sub_le (x : ℚ) : |(roundHalfEven x : ℚ) - x| ≤ 1 / 2 := by
  have h0 := Int.floor_le x
  have h1 := Int.lt_floor_add_one x
  unfold roundHalfEven
  rw [abs_le]
  split_ifs with a b c
  · constructor <;> linarith
  · push_cast; constructor <;> linarith
  · constructor <;> linarith
  · push_cast; constructor <;> linarith

theorem roundHalfEven_mono {x y : ℚ} (h : x ≤ y) : roundHalfEven x ≤ roundHalfEven y := by
  have hf : ⌊x⌋ ≤ ⌊y⌋ := Int.floor_mono h
  have hx0 := Int.floor_le x
  have hx1 := Int.lt_floor_add_one x
  have hy0 := Int.floor_le y
  have hy1 := Int.lt_floor_add_one y
  rcases hf.lt_or_eq with hlt | heq
  · -- `⌊x⌋ + 1 ≤ ⌊y⌋`
    have hxle : roundHalfEven x ≤ ⌊x⌋ + 1 := by
      unfold roundHalfEven; split_ifs <;> omega
    have hyge : ⌊y⌋ ≤ roundHalfEven y := by
      unfold roundHalfEven; split_ifs <;> omega
    omega
  · unfold roundHalfEven
    rw [heq] at hx0 hx1 ⊢
    split_ifs <;> first | omega | (exfalso; linarith)

theorem roundHalfEven_neg (x : ℚ) : roundHalfEven (-x) = -roundHalfEven x := by
  have hx0 := Int.floor_le x
  have hx1 := Int.lt_floor_add_one x
  by_cases hint : (⌊x⌋ : ℚ) = x
  · rw [← hint, ← Int.cast_neg, roundHalfEven_intCast, roundHalfEven_intCast]
  · have hlt : (⌊x⌋ : ℚ) < x := lt_of_le_of_ne hx0 hint
    have hfl : ⌊-x⌋ = -⌊x⌋ - 1 := by
      rw [Int.floor_eq_iff]
      push_cast
      constructor <;> linarith
    unfold roundHalfEven
    rw [hfl]
    push_cast
    split_ifs <;> first | omega | (exfalso; linarith)

/-- The exponent of the unit in the last place of `x` in a format of `prec` bits. -/
theorem roundBinary_def (prec : Nat) (x : ℚ) :
    roundBinary prec x
      = (roundHalfEven (x / (2 : ℚ) ^ (Int.log 2 |x| - ((prec : Int) - 1))) : ℚ)
          * (2 : ℚ) ^ (Int.log 2 |x| - ((prec : Int) - 1)) := rfl

theorem roundBinary_zero (prec : Nat) : roundBinary prec 0 = 0 := by
  simp [roundBinary, roundHalfEven]

theorem roundBinary_neg (prec : Nat) (x : ℚ) : roundBinary prec (-x) = -roundBinary prec x := by
  unfold roundBinary
  rw [abs_neg, neg_div, roundHalfEven_neg]
  push_cast
  ring

theorem two_zpow_pos (e : Int) : (0 : ℚ) < (2 : ℚ) ^ e := zpow_pos (by norm_num) e

/-- With the exponent `e` of the last place given: `2 ^ (prec - 1) * 2 ^ e <= x < 2 ^ prec * 2 ^ e`. -/
theorem roundBinary_eq_of_bounds (prec : Nat) (x : ℚ) (e : Int)
    (hlo : (2 : ℚ) ^ (e + ((prec : Int) - 1)) ≤ x) (hhi : x < (2 : ℚ) ^ (e + (prec : Int))) :
    roundBinary prec x = (roundHalfEven (x / (2 : ℚ) ^ e) : ℚ) * (2 : ℚ) ^ e := by
  have hx : 0 < x := lt_of_lt_of_le (two_zpow_pos _) hlo
  have hlog : Int.log 2 |x| = e + ((prec : Int) - 1) := by
    rw [abs_of_pos hx]
    apply le_antisymm
    · have := (Int.lt_zpow_iff_log_lt (R := ℚ) (b := 2) (by norm_num) hx
        (x := e + (prec : Int))).mp (by exact_mod_cast hhi)
      omega
    · exact (Int.zpow_le_iff_le_log (R := ℚ) (b := 2) (by norm_num) hx).mp
        (by exact_mod_cast hlo)
  rw [roundBinary_def, hlog]
  have : e + ((prec : Int) - 1) - ((prec : Int) - 1) = e := by ring
  rw [this]

/-- The scaled value lies in `[2 ^ (prec - 1), 2 ^ prec)`. -/
theorem scaled_bounds (prec : Nat) {x : ℚ} (hx : 0 < x) :
    (2 : ℚ) ^ ((prec : Int) - 1) ≤ x / (2 : ℚ) ^ (Int.log 2 |x| - ((prec : Int) - 1))
      ∧ x / (2 : ℚ) ^ (Int.log 2 |x| - ((prec : Int) - 1)) < (2 : ℚ) ^ (prec : Int) := by
  rw [abs_of_pos hx]
  have h1 := Int.zpow_log_le_self (R := ℚ) (b := 2) (by norm_num) hx
  have h2 := Int.lt_zpow_succ_log_self (R := ℚ) (b := 2) (by norm_num) x
  push_cast at h1 h2
  have hE := two_zpow_pos (Int.log 2 x - ((prec : Int) - 1))
  constructor
  · rw [le_div_iff₀ hE, ← zpow_add₀ (by norm_num : (2 : ℚ) ≠ 0)]
    have : (prec : Int) - 1 + (Int.log 2 x - ((prec : Int) - 1)) = Int.log 2 x := by ring
    rw [this]; exact h1
  · rw [div_lt_iff₀ hE, ← zpow_add₀ (by norm_num : (2 : ℚ) ≠ 0)]
    have : (prec : Int) + (Int.log 2 x - ((prec : Int) - 1)) = Int.log 2 x + 1 := by ring
    rw [this]; exact h2

theorem roundBinary_nonneg (prec : Nat) {x : ℚ} (hx : 0 ≤ x) : 0 ≤ roundBinary prec x := by
  rw [roundBinary_def]
  apply mul_nonneg _ (two_zpow_pos _).le
  have h : roundHalfEven 0 ≤ roundHalfEven
      (x / (2 : ℚ) ^ (Int.log 2 |x| - ((prec : Int) - 1))) :=
    roundHalfEven_mono (div_nonneg hx (two_zpow_pos _).le)
  have h0 : roundHalfEven 0 = 0 := by simpa using roundHalfEven_intCast 0
  rw [h0] at h
  exact_mod_cast h

theorem two_zpow_natCast (n : Nat) : (2 : ℚ) ^ (n : Int) = (((2 : Int) ^ n : Int) : ℚ) := by
  push_cast; rw [zpow_natCast]

theorem roundBinary_mono_pos (prec : Nat) (hp : 0 < prec) {x y : ℚ} (hx : 0 < x)
    (h : x ≤ y) : roundBinary prec x ≤ roundBinary prec y := by
  have hy : 0 < y := lt_of_lt_of_le hx h
  have hlog : Int.log 2 |x| ≤ Int.log 2 |y| := by
    rw [abs_of_pos hx, abs_of_pos hy]; exact Int.log_mono_right hx h
  obtain ⟨hx1, hx2⟩ := scaled_bounds prec hx
  obtain ⟨hy1, hy2⟩ := scaled_bounds prec hy
  rw [roundBinary_def, roundBinary_def]
  rcases hlog.lt_or_eq with hlt | heq
  · -- different binades
    have hxr : roundHalfEven (x / (2 : ℚ) ^ (Int.log 2 |x| - ((prec : Int) - 1)))
        ≤ (2 : Int) ^ prec := by
      have := roundHalfEven_mono hx2.le
      rwa [two_zpow_natCast, roundHalfEven_intCast] at this
    have hpow : (2 : ℚ) ^ ((prec : Int) - 1) = (((2 : Int) ^ (prec - 1) : Int) : ℚ) := by
      rw [show (prec : Int) - 1 = ((prec - 1 : Nat) : Int) by omega, two_zpow_natCast]
    have hyr : (2 : Int) ^ (prec - 1)
        ≤ roundHalfEven (y / (2 : ℚ) ^ (Int.log 2 |y| - ((prec : Int) - 1))) := by
      rw [hpow] at hy1
      have := roundHalfEven_mono hy1
      rwa [roundHalfEven_intCast] at this
    have hxq : (roundHalfEven (x / (2 : ℚ) ^ (Int.log 2 |x| - ((prec : Int) - 1))) : ℚ)
        ≤ (2 : ℚ) ^ (prec : Int) := by
      rw [two_zpow_natCast]; exact_mod_cast hxr
    have hyq : (2 : ℚ) ^ ((prec : Int) - 1)
        ≤ (roundHalfEven (y / (2 : ℚ) ^ (Int.log 2 |y| - ((prec : Int) - 1))) : ℚ) := by
      rw [hpow]; exact_mod_cast hyr
    calc (roundHalfEven (x / (2 : ℚ) ^ (Int.log 2 |x| - ((prec : Int) - 1))) : ℚ)
          * (2 : ℚ) ^ (Int.log 2 |x| - ((prec : Int) - 1))
        ≤ (2 : ℚ) ^ (prec : Int) * (2 : ℚ) ^ (Int.log 2 |x| - ((prec : Int) - 1)) :=
          mul_le_mul_of_nonneg_right hxq (two_zpow_pos _).le
      _ = (2 : ℚ) ^ (Int.log 2 |x| + 1) := by
          rw [← zpow_add₀ (by norm_num : (2 : ℚ) ≠ 0)]; congr 1; ring
      _ ≤ (2 : ℚ) ^ (Int.log 2 |y|) :=
          zpow_le_zpow_right₀ (by norm_num) (by omega)
      _ = (2 : ℚ) ^ ((prec : Int) - 1) * (2 : ℚ) ^ (Int.log 2 |y| - ((prec : Int) - 1)) := by
          rw [← zpow_add₀ (by norm_num : (2 : ℚ) ≠ 0)]; congr 1; ring
      _ ≤ _ := mul_le_mul_of_nonneg_right hyq (two_zpow_pos _).le
  · rw [heq]
    apply mul_le_mul_of_nonneg_right _ (two_zpow_pos _).le
    have : x / (2 : ℚ) ^ (Int.log 2 |y| - ((prec : Int) - 1))
        ≤ y / (2 : ℚ) ^ (Int.log 2 |y| - ((prec : Int) - 1)) :=
      div_le_div_of_nonneg_right h (two_zpow_pos _).le
    exact_mod_cast roundHalfEven_mono this

/-- Rounding is monotone. -/
theorem roundBinary_mono (prec : Nat) (hp : 0 < prec) {x y : ℚ} (h : x ≤ y) :
    roundBinary prec x ≤ roundBinary prec y := by
  rcases lt_trichotomy x 0 with hx | hx | hx
  · rcases lt_or_le y 0 with hy | hy
    · have := roundBinary_mono_pos prec hp (neg_pos.mpr hy) (neg_le_neg h)
      rw [roundBinary_neg, roundBinary_neg] at this
      linarith
    · have h1 := roundBinary_nonneg prec hy
      have h2 := roundBinary_nonneg prec (neg_pos.mpr hx).le
      rw [roundBinary_neg] at h2
      linarith
  · rw [hx, roundBinary_zero]
    exact roundBinary_nonneg prec (hx ▸ h)
  · exact roundBinary_mono_pos prec hp hx h

/-- A value `m * 2 ^ k` with `|m| < 2 ^ prec` is not changed by rounding. -/
theorem roundBinary_exact (prec : Nat) (m k : Int) (hm : |m| < 2 ^ prec) :
    roundBinary prec ((m : ℚ) * (2 : ℚ) ^ k) = (m : ℚ) * (2 : ℚ) ^ k := by
  rcases eq_or_ne m 0 with rfl | hm0
  · simp [roundBinary_zero]
  have hx0 : |(m : ℚ) * (2 : ℚ) ^ k| = (|m| : Int) * (2 : ℚ) ^ k := by
    rw [abs_mul, abs_of_pos (two_zpow_pos k)]; push_cast; rfl
  have hpos : (0 : ℚ) < |(m : ℚ) * (2 : ℚ) ^ k| := by
    rw [hx0]
    apply mul_pos _ (two_zpow_pos k)
    exact_mod_cast abs_pos.mpr hm0
  have hlt : |(m : ℚ) * (2 : ℚ) ^ k| < (2 : ℚ) ^ ((prec : Int) + k) := by
    rw [hx0, zpow_add₀ (by norm_num : (2 : ℚ) ≠ 0), two_zpow_natCast]
    apply mul_lt_mul_of_pos_right _ (two_zpow_pos k)
    exact_mod_cast hm
  have hlog : Int.log 2 |(m : ℚ) * (2 : ℚ) ^ k| < (prec : Int) + k :=
    (Int.lt_zpow_iff_log_lt (R := ℚ) (b := 2) (by norm_num) hpos).mp (by exact_mod_cast hlt)
  rw [roundBinary_def]
  set E : Int := Int.log 2 |(m : ℚ) * (2 : ℚ) ^ k| - ((prec : Int) - 1) with hE
  have hkE : 0 ≤ k - E := by omega
  obtain ⟨n, hn⟩ := Int.eq_ofNat_of_zero_le hkE
  have hdiv : (m : ℚ) * (2 : ℚ) ^ k / (2 : ℚ) ^ E = ((m * 2 ^ n : Int) : ℚ) := by
    rw [mul_div_assoc, ← zpow_sub₀ (by norm_num : (2 : ℚ) ≠ 0), hn]
    push_cast; rw [zpow_natCast]
  rw [hdiv, roundHalfEven_intCast]
  push_cast
  rw [mul_assoc, ← zpow_natCast, ← zpow_add₀ (by norm_num : (2 : ℚ) ≠ 0)]
  congr 2
  omega

theorem roundBinary_intCast (prec : Nat) (hp : 0 < prec) (n : Int) (hn : |n| ≤ 2 ^ prec) :
    roundBinary prec (n : ℚ) = n := by
  rcases hn.lt_or_eq with h | h
  · simpa using roundBinary_exact prec n 0 h
  · rcases abs_eq (by positivity : (0 : Int) ≤ 2 ^ prec) |>.mp h with h1 | h1
    · have := roundBinary_exact prec 1 prec (by
        rw [abs_one]; exact one_lt_pow₀ (by norm_num) hp.ne')
      rw [h1]; push_cast
      simpa [zpow_natCast] using this
    · have := roundBinary_exact prec (-1) prec (by
        rw [abs_neg, abs_one]; exact one_lt_pow₀ (by norm_num) hp.ne')
      rw [h1]; push_cast
      simpa [zpow_natCast] using this

/-- The rounding error of a value below `2 ^ k` is at most `2 ^ (k - prec - 1)`. -/
theorem roundBinary_sub_le (prec : Nat) {x : ℚ} (k : Int) (hx0 : 0 ≤ x)
    (hx : x < (2 : ℚ) ^ k) :
    |roundBinary prec x - x| ≤ (2 : ℚ) ^ (k - (prec : Int) - 1) := by
  rcases hx0.eq_or_lt with rfl | hpos
  · rw [roundBinary_zero]; simp [(two_zpow_pos _).le]
  have hlog : Int.log 2 |x| < k := by
    rw [abs_of_pos hpos]
    exact (Int.lt_zpow_iff_log_lt (R := ℚ) (b := 2) (by norm_num) hpos).mp
      (by exact_mod_cast hx)
  rw [roundBinary_def]
  set E : Int := Int.log 2 |x| - ((prec : Int) - 1) with hE
  have hEpos := two_zpow_pos E
  have hs := roundHalfEven_sub_le (x / (2 : ℚ) ^ E)
  have heq : (roundHalfEven (x / (2 : ℚ) ^ E) : ℚ) * (2 : ℚ) ^ E - x
      = ((roundHalfEven (x / (2 : ℚ) ^ E) : ℚ) - x / (2 : ℚ) ^ E) * (2 : ℚ) ^ E := by
    field_simp
  rw [heq, abs_mul, abs_of_pos hEpos]
  calc |(roundHalfEven (x / (2 : ℚ) ^ E) : ℚ) - x / (2 : ℚ) ^ E| * (2 : ℚ) ^ E
      ≤ 1 / 2 * (2 : ℚ) ^ E := mul_le_mul_of_nonneg_right hs hEpos.le
    _ = (2 : ℚ) ^ (E - 1) := by
        rw [zpow_sub_one₀ (by norm_num : (2 : ℚ) ≠ 0)]; ring
    _ ≤ (2 : ℚ) ^ (k - (prec : Int) - 1) :=
        zpow_le_zpow_right₀ (by norm_num) (by omega)


theorem roundHalfEven_eq_of_near (x : ℚ) (n : Int) (h1 : (n : ℚ) - 1 / 2 < x)
    (h2 : x < (n : ℚ) + 1 / 2) : roundHalfEven x = n := by
  have h := abs_le.mp (roundHalfEven_sub_le x)
  have hlt : (roundHalfEven x : ℚ) < (n : ℚ) + 1 := by linarith [h.2]
  have hgt : (n : ℚ) - 1 < (roundHalfEven x : ℚ) := by linarith [h.1]
  have hlt' : roundHalfEven x < n + 1 := by exact_mod_cast hlt
  have hgt' : n - 1 < roundHalfEven x := by exact_mod_cast hgt
  omega

/-- Evaluation of a rounding: with the exponent `e` of the last place and the integer `n`
nearest to `x / 2 ^ e` given, the rounded value is `n * 2 ^ e`. -/
theorem roundBinary_eq (prec : Nat) (x : ℚ) (e n : Int)
    (hlo : (2 : ℚ) ^ (e + ((prec : Int) - 1)) ≤ x) (hhi : x < (2 : ℚ) ^ (e + (prec : Int)))
    (h1 : (n : ℚ) - 1 / 2 < x / (2 : ℚ) ^ e) (h2 : x / (2 : ℚ) ^ e < (n : ℚ) + 1 / 2) :
    roundBinary prec x = (n : ℚ) * (2 : ℚ) ^ e := by
  rw [roundBinary_eq_of_bounds prec x e hlo hhi, roundHalfEven_eq_of_near _ n h1 h2]

/-! ## Doubles and floats -/

theorem roundDouble_mono {x y : ℚ} (h : x ≤ y) : roundDouble x ≤ roundDouble y :=
  roundBinary_mono 53 (by norm_num) h

theorem roundDouble_nonneg {x : ℚ} (h : 0 ≤ x) : 0 ≤ roundDouble x :=
  roundBinary_nonneg 53 h

theorem roundDouble_intCast (n : Int) (h : |n| ≤ 2 ^ 53) : roundDouble (n : ℚ) = n :=
  roundBinary_intCast 53 (by norm_num) n h

theorem roundDouble_natCast (n : Nat) (h : n ≤ 2 ^ 53) : roundDouble (n : ℚ) = n := by
  have := roundDouble_intCast (n : Int) (by
    rw [abs_of_nonneg (Int.natCast_nonneg n)]; exact_mod_cast h)
  simpa using this

theorem roundDouble_one : roundDouble 1 = 1 := by
  simpa using roundDouble_natCast 1 (by norm_num)

theorem roundDouble_zero : roundDouble 0 = 0 := roundBinary_zero 53

theorem roundDouble_sub_le {x : ℚ} (k : Int) (hx0 : 0 ≤ x) (hx : x < (2 : ℚ) ^ k) :
    |roundDouble x - x| ≤ (2 : ℚ) ^ (k - 54) := by
  have := roundBinary_sub_le 53 k hx0 hx
  have e : k - ((53 : Nat) : Int) - 1 = k - 54 := by norm_num; ring
  rwa [e] at this

theorem roundFloat_mono {x y : ℚ} (h : x ≤ y) : roundFloat x ≤ roundFloat y :=
  roundBinary_mono 24 (by norm_num) h

theorem roundFloat_intCast (n : Int) (h : |n| ≤ 2 ^ 24) : roundFloat (n : ℚ) = n :=
  roundBinary_intCast 24 (by norm_num) n h

/-- A multiple `m / 128` of `2 ^ (-7)` with `|m| < 2 ^ 24` is a `float`. -/
theorem roundFloat_div_128 (m : Int) (h : |m| < 2 ^ 24) :
    roundFloat ((m : ℚ) / 128) = (m : ℚ) / 128 := by
  have := roundBinary_exact 24 m (-7) h
  have e : (2 : ℚ) ^ (-7 : Int) = 1 / 128 := by norm_num [zpow_neg]
  rw [e] at this
  have e2 : (m : ℚ) * (1 / 128) = (m : ℚ) / 128 := by ring
  rw [e2] at this
  exact this

/-- The `float` literal `0.01f` is `10737418 / 2 ^ 30`. -/
theorem autoFollowFraction_eq : autoFollowFraction = 10737418 / 1073741824 := by
  unfold autoFollowFraction roundFloat
  rw [roundBinary_eq 24 (1 / 100) (-30) 10737418 (by norm_num [zpow_neg])
    (by norm_num [zpow_neg]) (by norm_num [zpow_neg]) (by norm_num [zpow_neg])]
  norm_num [zpow_neg]

/-- The auto-follow condition of line 473 for a scrollbar range inside `(-2 ^ 17, 2 ^ 17)`: the
`float` comparison agrees with the comparison of `v` with `MAX - (MAX - MIN) / 100`. -/
theorem atRightEdge_iff_of_range {MIN MAX v : Int} (hlo : -2 ^ 17 < MIN) (hhi : MAX < 2 ^ 17)
    (hM : MIN < MAX) (hv0 : MIN ≤ v) (hv1 : v ≤ MAX) :
    atRightEdge MIN MAX v ↔ 100 * MAX - (MAX - MIN) < 100 * v := by
  have hrf : roundFloat ((MAX - MIN : Int) : ℚ) = ((MAX - MIN : Int) : ℚ) :=
    roundFloat_intCast _ (by rw [abs_le]; constructor <;> omega)
  have hMf : roundFloat (MAX : ℚ) = (MAX : ℚ) :=
    roundFloat_intCast _ (by rw [abs_le]; constructor <;> omega)
  have hvf : roundFloat (v : ℚ) = (v : ℚ) :=
    roundFloat_intCast _ (by rw [abs_le]; constructor <;> omega)
  have hrpos : (0 : ℚ) < ((MAX - MIN : Int) : ℚ) := by exact_mod_cast sub_pos.mpr hM
  have hrle : ((MAX - MIN : Int) : ℚ) ≤ 262144 := by
    have : MAX - MIN ≤ 262144 := by omega
    exact_mod_cast this
  unfold atRightEdge
  rw [hrf, hMf, hvf, autoFollowFraction_eq]
  set R : ℚ := ((MAX - MIN : Int) : ℚ) with hR
  set P : ℚ := roundFloat (R * (10737418 / 1073741824)) with hPdef
  have hdcast : ((MAX - v : Int) : ℚ) = (MAX : ℚ) - (v : ℚ) := by push_cast; ring
  constructor
  · -- auto-follow is triggered: `v` is above the exact threshold
    intro h
    by_contra hcon
    have hd : MAX - MIN ≤ 100 * (MAX - v) := by omega
    have hdq : R ≤ 100 * ((MAX : ℚ) - (v : ℚ)) := by
      rw [← hdcast, hR]; exact_mod_cast hd
    have hP : P ≤ (MAX : ℚ) - (v : ℚ) := by
      have h1 : R * (10737418 / 1073741824) ≤ ((MAX - v : Int) : ℚ) := by
        rw [hdcast]; linarith
      have h2 := roundFloat_mono h1
      rwa [roundFloat_intCast _ (by rw [abs_le]; constructor <;> omega), hdcast] at h2
    have hT : (v : ℚ) ≤ roundFloat ((MAX : ℚ) - P) := by
      have h1 : (v : ℚ) ≤ (MAX : ℚ) - P := by linarith
      have h2 := roundFloat_mono h1
      rwa [hvf] at h2
    exact absurd h (not_lt.mpr hT)
  · -- `v` is above the exact threshold: auto-follow is triggered
    intro h
    have hd : 100 * (MAX - v) + 1 ≤ MAX - MIN := by omega
    have hdq : 100 * ((MAX : ℚ) - (v : ℚ)) + 1 ≤ R := by
      rw [← hdcast, hR]; exact_mod_cast hd
    have hd0 : (0 : ℚ) ≤ (MAX : ℚ) - (v : ℚ) := by
      rw [← hdcast]
      have : 0 ≤ MAX - v := by omega
      exact_mod_cast this
    have hzc : ((128 * (MAX - v) + 1 : Int) : ℚ) / 128 = (MAX : ℚ) - (v : ℚ) + 1 / 128 := by
      push_cast; ring
    have hz : ((128 * (MAX - v) + 1 : Int) : ℚ) / 128 ≤ R * (10737418 / 1073741824) := by
      rw [hzc]; linarith
    have hP : (MAX : ℚ) - (v : ℚ) + 1 / 128 ≤ P := by
      have := roundFloat_mono hz
      rwa [roundFloat_div_128 _ (by rw [abs_lt]; constructor <;> omega), hzc] at this
    have hyc : ((128 * v - 1 : Int) : ℚ) / 128 = (v : ℚ) - 1 / 128 := by
      push_cast; ring
    have hy : (MAX : ℚ) - P ≤ ((128 * v - 1 : Int) : ℚ) / 128 := by
      rw [hyc]; linarith
    have hT := roundFloat_mono hy
    rw [roundFloat_div_128 _ (by rw [abs_lt]; constructor <;> omega), hyc] at hT
    have : (v : ℚ) - 1 / 128 < (v : ℚ) := by linarith
    exact lt_of_le_of_lt hT this

theorem atRightEdge_iff_rat {MIN MAX v : Int} (hlo : -2 ^ 17 < MIN) (hhi : MAX < 2 ^ 17)
    (hM : MIN < MAX) (hv0 : MIN ≤ v) (hv1 : v ≤ MAX) :
    atRightEdge MIN MAX v ↔ (v : ℚ) > (MAX : ℚ) - ((MAX : ℚ) - (MIN : ℚ)) / 100 := by
  rw [atRightEdge_iff_of_range hlo hhi hM hv0 hv1]
  constructor
  · intro h
    have hq : (100 : ℚ) * (MAX : ℚ) - ((MAX : ℚ) - (MIN : ℚ)) < 100 * (v : ℚ) := by
      exact_mod_cast h
    linarith
  · intro h
    have hq : (100 : ℚ) * (MAX : ℚ) - ((MAX : ℚ) - (MIN : ℚ)) < 100 * (v : ℚ) := by linarith
    exact_mod_cast hq

/-! ## Arithmetic lemmas -/

theorem add64_eq {a b : Nat} (h : a + b < quint64Size) : add64 a b = a + b := by
  unfold add64; exact Nat.mod_eq_of_lt h

theorem sub64_eq {a b : Nat} (hb : b ≤ a) (ha : a < quint64Size) : sub64 a b = a - b := by
  unfold sub64 quint64Size at *
  omega

theorem truncate_of_nonneg {x : ℚ} (h : 0 ≤ x) : truncate x = ⌊x⌋ := by
  unfold truncate; rw [if_pos h]

theorem toQuint64_eq {x : ℚ} (h0 : 0 ≤ x) (h1 : x < (quint64Size : ℚ)) :
    toQuint64 x = ⌊x⌋.toNat := by
  unfold toQuint64
  rw [truncate_of_nonneg h0]
  have hf0 : 0 ≤ ⌊x⌋ := Int.floor_nonneg.mpr h0
  have hf1 : ⌊x⌋ < (quint64Size : Int) := by
    rw [Int.floor_lt]
    exact_mod_cast h1
  rw [Int.emod_eq_of_lt hf0 hf1]

theorem repositionRequests_int (MIN MAX : Int) (p : PlotTimes) (v : Int) :
    repositionRequests (setPlotWindowPosition_int MIN MAX p v)
      = if atRightEdge MIN MAX v then []
        else [rightPosition p (scrollBarPosition MIN MAX v)] := by
  unfold setPlotWindowPosition_int
  split_ifs <;> simp [repositionRequests]

theorem autoScrollCalls_int (MIN MAX : Int) (p : PlotTimes) (v : Int) :
    autoScrollCalls (setPlotWindowPosition_int MIN MAX p v)
      = [decide (atRightEdge MIN MAX v)] := by
  unfold setPlotWindowPosition_int
  split_ifs with h <;> simp [autoScrollCalls, h]

theorem scrollbarRequests_quint64 (MIN MAX : Int) (p : PlotTimes) (position : Nat) :
    scrollbarRequests (setPlotWindowPosition_quint64 MIN MAX p position)
      = [truncate (roundDouble ((relativePosition p position).2
          * ((MAX - MIN : Int) : ℚ)))] := by
  simp [setPlotWindowPosition_quint64, scrollbarRequests]

theorem setDisabledCalls_quint64 (MIN MAX : Int) (p : PlotTimes) (position : Nat) :
    setDisabledCalls (setPlotWindowPosition_quint64 MIN MAX p position)
      = [(relativePosition p position).1] := by
  simp [setPlotWindowPosition_quint64, setDisabledCalls]

/-! ## The relative scrollbar position of line 469 -/

/-- For `int` constants and an offset `a = v - MIN` the position is the rounded quotient. -/
theorem scrollBarPosition_eq {MIN MAX v : Int} (hMIN : IsInt MIN) (hMAX : IsInt MAX)
    (hv0 : MIN ≤ v) (hv1 : v ≤ MAX) :
    scrollBarPosition MIN MAX v
      = roundDouble (((v - MIN : Int) : ℚ) / ((MAX - MIN : Int) : ℚ)) := by
  unfold IsInt at hMIN hMAX
  unfold scrollBarPosition
  have hc : (v : ℚ) - (MIN : ℚ) = ((v - MIN : Int) : ℚ) := by push_cast; ring
  simp only []
  rw [hc, roundDouble_intCast _ (by rw [abs_le]; constructor <;> omega)]

/-- The position of a value in `[MIN, MAX]` lies in `[0, 1]` and is within `2 ^ (-54)` of
the exact quotient. -/
theorem scrollBarPosition_bounds {MIN MAX v : Int} (hMIN : IsInt MIN) (hMAX : IsInt MAX)
    (hM : MIN < MAX) (hv0 : MIN ≤ v) (hv1 : v ≤ MAX) :
    0 ≤ scrollBarPosition MIN MAX v ∧ scrollBarPosition MIN MAX v ≤ 1
      ∧ |scrollBarPosition MIN MAX v - ((v - MIN : Int) : ℚ) / ((MAX - MIN : Int) : ℚ)|
          ≤ (2 : ℚ) ^ (-54 : Int) := by
  rw [scrollBarPosition_eq hMIN hMAX hv0 hv1]
  have hr : (0 : ℚ) < ((MAX - MIN : Int) : ℚ) := by exact_mod_cast sub_pos.mpr hM
  have ha : (0 : ℚ) ≤ ((v - MIN : Int) : ℚ) := by
    have : 0 ≤ v - MIN := by omega
    exact_mod_cast this
  have hb : ((v - MIN : Int) : ℚ) ≤ ((MAX - MIN : Int) : ℚ) := by
    have : v - MIN ≤ MAX - MIN := by omega
    exact_mod_cast this
  have hq0 : (0 : ℚ) ≤ ((v - MIN : Int) : ℚ) / ((MAX - MIN : Int) : ℚ) := div_nonneg ha hr.le
  have hq1 : ((v - MIN : Int) : ℚ) / ((MAX - MIN : Int) : ℚ) ≤ 1 := (div_le_one hr).mpr hb
  refine ⟨roundDouble_nonneg hq0, ?_, ?_⟩
  · have := roundDouble_mono hq1
    rwa [roundDouble_one] at this
  · rcases hq1.lt_or_eq with hlt | heq
    · have := roundDouble_sub_le 0 hq0 (by simpa using hlt)
      simpa using this
    · rw [heq, roundDouble_one]
      simp [(two_zpow_pos _).le]

theorem scrollBarPosition_min {MIN MAX : Int} : scrollBarPosition MIN MAX MIN = 0 := by
  unfold scrollBarPosition
  simp [roundDouble_zero]

/-! ## The right edge of line 481 -/

/-- The `double` sum of line 481 before its conversion to `quint64`. -/
theorem rightPosition_unfold (p : PlotTimes) (pos : ℚ)
    (hd : p.dataInterval > p.plotInterval) :
    rightPosition p pos
      = toQuint64 (roundDouble
          (roundDouble ((add64 p.minTime p.plotInterval : Nat) : ℚ)
            + roundDouble (roundDouble ((sub64 p.dataInterval p.plotInterval : Nat) : ℚ)
                * pos))) := by
  unfold rightPosition
  rw [if_pos hd]

/-- With the data interval below `2 ^ 52` the right edge is the floor of a `double` that
lies in `[minTime + plotInterval, minTime + dataInterval]` and is within `1 / 2` of
`minTime + plotInterval + (dataInterval - plotInterval) * pos`. -/
theorem rightPosition_spec (p : PlotTimes) (pos : ℚ)
    (hd : p.dataInterval > p.plotInterval)
    (hmax : p.minTime + p.dataInterval < 2 ^ 52) (h0 : 0 ≤ pos) (h1 : pos ≤ 1) :
    ∃ x : ℚ, rightPosition p pos = ⌊x⌋.toNat
      ∧ ((p.minTime + p.plotInterval : Nat) : ℚ) ≤ x
      ∧ x ≤ ((p.minTime + p.dataInterval : Nat) : ℚ)
      ∧ |x - (((p.minTime + p.plotInterval : Nat) : ℚ)
            + ((p.dataInterval - p.plotInterval : Nat) : ℚ) * pos)| ≤ 1 / 2 := by
  have hB : add64 p.minTime p.plotInterval = p.minTime + p.plotInterval :=
    add64_eq (by unfold quint64Size; omega)
  have hS : sub64 p.dataInterval p.plotInterval = p.dataInterval - p.plotInterval :=
    sub64_eq hd.le (by unfold quint64Size; omega)
  rw [rightPosition_unfold p pos hd, hB, hS]
  set B : Nat := p.minTime + p.plotInterval with hBdef
  set S : Nat := p.dataInterval - p.plotInterval with hSdef
  have hBS : B + S = p.minTime + p.dataInterval := by omega
  have hBSlt : B + S < 2 ^ 52 := by omega
  have hrB : roundDouble (B : ℚ) = B := roundDouble_natCast B (by omega)
  have hrS : roundDouble (S : ℚ) = S := roundDouble_natCast S (by omega)
  have hrBS : roundDouble ((B + S : Nat) : ℚ) = ((B + S : Nat) : ℚ) :=
    roundDouble_natCast (B + S) (by omega)
  rw [hrB, hrS]
  have hSq : (0 : ℚ) ≤ (S : ℚ) := Nat.cast_nonneg S
  have hBq : (0 : ℚ) ≤ (B : ℚ) := Nat.cast_nonneg B
  have hBSq : ((B + S : Nat) : ℚ) < (2 : ℚ) ^ (52 : Int) := by
    have h : ((B + S : Nat) : ℚ) < ((2 ^ 52 : Nat) : ℚ) := by exact_mod_cast hBSlt
    have h2 : ((2 ^ 52 : Nat) : ℚ) = (2 : ℚ) ^ (52 : Int) := by norm_num
    rw [← h2]
    exact h
  -- the product
  have hq0 : (0 : ℚ) ≤ (S : ℚ) * pos := mul_nonneg hSq h0
  have hq1 : (S : ℚ) * pos ≤ (S : ℚ) := by nlinarith
  have hrq0 : 0 ≤ roundDouble ((S : ℚ) * pos) := roundDouble_nonneg hq0
  have hrq1 : roundDouble ((S : ℚ) * pos) ≤ (S : ℚ) := by
    have := roundDouble_mono hq1
    rwa [hrS] at this
  have hqlt : (S : ℚ) * pos < (2 : ℚ) ^ (52 : Int) := by
    have : (S : ℚ) ≤ ((B + S : Nat) : ℚ) := by push_cast; linarith
    linarith
  have heq := roundDouble_sub_le 52 hq0 hqlt
  -- the sum
  have hs0 : (0 : ℚ) ≤ (B : ℚ) + roundDouble ((S : ℚ) * pos) := by linarith
  have hs1 : (B : ℚ) + roundDouble ((S : ℚ) * pos) ≤ ((B + S : Nat) : ℚ) := by
    push_cast; linarith
  have hes := roundDouble_sub_le 52 hs0 (lt_of_le_of_lt hs1 hBSq)
  have hpow : (2 : ℚ) ^ ((52 : Int) - 54) = 1 / 4 := by norm_num [zpow_neg]
  rw [hpow] at heq hes
  have hx0 : (B : ℚ) ≤ roundDouble ((B : ℚ) + roundDouble ((S : ℚ) * pos)) := by
    have := roundDouble_mono (show (B : ℚ) ≤ (B : ℚ) + roundDouble ((S : ℚ) * pos) by linarith)
    rwa [hrB] at this
  have hx1 : roundDouble ((B : ℚ) + roundDouble ((S : ℚ) * pos)) ≤ ((B + S : Nat) : ℚ) := by
    have := roundDouble_mono hs1
    rwa [hrBS] at this
  refine ⟨_, toQuint64_eq (by linarith) ?_, hx0, by rw [← hBS]; exact hx1, ?_⟩
  · have : ((B + S : Nat) : ℚ) < ((quint64Size : Nat) : ℚ) := by
      have : B + S < quint64Size := by unfold quint64Size; omega
      exact_mod_cast this
    linarith
  · have e1 := abs_le.mp heq
    have e2 := abs_le.mp hes
    rw [abs_le]
    constructor <;> linarith [e1.1, e1.2, e2.1, e2.2]

/-- The right edge requested for a scrollbar value `v` in `[MIN, MAX]`, with the data
interval below `2 ^ 52`: the floor of a `double` in
`[minTime + plotInterval, minTime + dataInterval]` within `3 / 4` of the reference value
`minTime + plotInterval + (dataInterval - plotInterval) * (v - MIN) / (MAX - MIN)`. -/
theorem rightEdge_spec {MIN MAX v : Int} (p : PlotTimes) (hMIN : IsInt MIN) (hMAX : IsInt MAX)
    (hM : MIN < MAX) (hv0 : MIN ≤ v) (hv1 : v ≤ MAX)
    (hd : p.dataInterval > p.plotInterval) (hmax : p.minTime + p.dataInterval < 2 ^ 52) :
    ∃ x : ℚ, rightPosition p (scrollBarPosition MIN MAX v) = ⌊x⌋.toNat
      ∧ ((p.minTime + p.plotInterval : Nat) : ℚ) ≤ x
      ∧ x ≤ ((p.minTime + p.dataInterval : Nat) : ℚ)
      ∧ |x - (((p.minTime + p.plotInterval : Nat) : ℚ)
            + ((p.dataInterval - p.plotInterval : Nat) : ℚ)
              * (((v - MIN : Int) : ℚ) / ((MAX - MIN : Int) : ℚ)))| ≤ 3 / 4 := by
  obtain ⟨h0, h1, herr⟩ := scrollBarPosition_bounds hMIN hMAX hM hv0 hv1
  obtain ⟨x, hx, hxlo, hxhi, hxerr⟩ := rightPosition_spec p _ hd hmax h0 h1
  refine ⟨x, hx, hxlo, hxhi, ?_⟩
  have hS0 : (0 : ℚ) ≤ ((p.dataInterval - p.plotInterval : Nat) : ℚ) := Nat.cast_nonneg _
  have hS1 : ((p.dataInterval - p.plotInterval : Nat) : ℚ) ≤ 4503599627370496 := by
    have : p.dataInterval - p.plotInterval ≤ 4503599627370496 := by omega
    exact_mod_cast this
  have hpow : (2 : ℚ) ^ (-54 : Int) = 1 / 18014398509481984 := by norm_num [zpow_neg]
  rw [hpow] at herr
  have e1 := abs_le.mp herr
  have e2 := abs_le.mp hxerr
  rw [abs_le]
  constructor <;> nlinarith [e1.1, e1.2, e2.1, e2.2]

/-- For a right edge `minTime + plotInterval + k` the branch of
`setPlotWindowPosition(quint64)` enables the scrollbar and computes the `double` quotient
of `k` and `dataInterval - plotInterval`. -/
theorem relativePosition_offset (p : PlotTimes) (k : Nat) (hq : p.IsQuint64)
    (hd : p.dataInterval > p.plotInterval)
    (hfit : p.minTime + p.plotInterval + k < quint64Size) :
    relativePosition p (p.minTime + p.plotInterval + k)
      = (false, roundDouble (roundDouble (k : ℚ)
          / roundDouble ((p.dataInterval - p.plotInterval : Nat) : ℚ))) := by
  obtain ⟨_, _, hdq⟩ := hq
  unfold relativePosition
  rw [if_pos hd, sub64_eq hd.le hdq]
  have h1 : sub64 (p.minTime + p.plotInterval + k) p.minTime = p.plotInterval + k := by
    rw [sub64_eq (by omega) hfit]; omega
  have h2 : sub64 (p.plotInterval + k) p.plotInterval = k := by
    rw [sub64_eq (by omega) (by omega)]; omega
  simp only [h1, h2]

/-- The `double` quotient of two `quint64` values `k <= S`, `0 < S`, lies in `[0, 1]`. -/
theorem roundDouble_div_bounds {k S : Nat} (hS : 0 < S) (hk : k ≤ S) :
    0 ≤ roundDouble (roundDouble (k : ℚ) / roundDouble (S : ℚ))
      ∧ roundDouble (roundDouble (k : ℚ) / roundDouble (S : ℚ)) ≤ 1 := by
  have hk0 : 0 ≤ roundDouble (k : ℚ) := roundDouble_nonneg (Nat.cast_nonneg k)
  have hkS : roundDouble (k : ℚ) ≤ roundDouble (S : ℚ) :=
    roundDouble_mono (by exact_mod_cast hk)
  have hS1 : 1 ≤ roundDouble (S : ℚ) := by
    have := roundDouble_mono (show (1 : ℚ) ≤ (S : ℚ) by exact_mod_cast hS)
    rwa [roundDouble_one] at this
  have hSpos : 0 < roundDouble (S : ℚ) := lt_of_lt_of_le one_pos hS1
  constructor
  · exact roundDouble_nonneg (div_nonneg hk0 hSpos.le)
  · have := roundDouble_mono ((div_le_one hSpos).mpr hkS)
    rwa [roundDouble_one] at this

/-! ## The condition of line 473 -/

/-- A value of a range inside `(-2 ^ 17, 2 ^ 17)` that is at least one hundredth of the
range below `MAX` does not trigger auto-follow. -/
theorem not_atRightEdge_of_le {MIN MAX v : Int} (hlo : -2 ^ 17 < MIN) (hhi : MAX < 2 ^ 17)
    (hM : MIN < MAX) (hv0 : MIN ≤ v) (hv1 : v ≤ MAX)
    (h : 100 * v ≤ 100 * MAX - (MAX - MIN)) : ¬ atRightEdge MIN MAX v := by
  rw [atRightEdge_iff_of_range hlo hhi hM hv0 hv1]
  omega

/-! ## Evaluation at concrete inputs -/

/-- Evaluation of a `double` rounding from the exponent of the last place and the nearest
integer multiple. -/
theorem roundDouble_eval (x : ℚ) (e n : Int)
    (hlo : (2 : ℚ) ^ (e + 52) ≤ x) (hhi : x < (2 : ℚ) ^ (e + 53))
    (h1 : (n : ℚ) - 1 / 2 < x / (2 : ℚ) ^ e) (h2 : x / (2 : ℚ) ^ e < (n : ℚ) + 1 / 2) :
    roundDouble x = (n : ℚ) * (2 : ℚ) ^ e :=
  roundBinary_eq 53 x e n (by simpa using hlo) (by simpa using hhi) h1 h2

/-- Evaluation of a `float` rounding from the exponent of the last place and the nearest
integer multiple. -/
theorem roundFloat_eval (x : ℚ) (e n : Int)
    (hlo : (2 : ℚ) ^ (e + 23) ≤ x) (hhi : x < (2 : ℚ) ^ (e + 24))
    (h1 : (n : ℚ) - 1 / 2 < x / (2 : ℚ) ^ e) (h2 : x / (2 : ℚ) ^ e < (n : ℚ) + 1 / 2) :
    roundFloat x = (n : ℚ) * (2 : ℚ) ^ e :=
  roundBinary_eq 24 x e n (by simpa using hlo) (by simpa using hhi) h1 h2

/-- A `double` that is a multiple of `2 ^ (-5)` with a short numerator. -/
theorem roundDouble_div_32 (m : Int) (h : |m| < 2 ^ 53) :
    roundDouble ((m : ℚ) / 32) = (m : ℚ) / 32 := by
  have := roundBinary_exact 53 m (-5) h
  have e : (2 : ℚ) ^ (-5 : Int) = 1 / 32 := by norm_num [zpow_neg]
  rw [e] at this
  have e2 : (m : ℚ) * (1 / 32) = (m : ℚ) / 32 := by ring
  rw [e2] at this
  exact this

/-- The scrollbar position of a value of `[MIN, MAX]`, as the `double` nearest to its
quotient `a / r`. -/
theorem scrollBarPosition_eval {MIN MAX v : Int} (a r : ℚ) (hMIN : IsInt MIN) (hMAX : IsInt MAX)
    (hv0 : MIN ≤ v) (hv1 : v ≤ MAX) (ha : ((v - MIN : Int) : ℚ) = a)
    (hr : ((MAX - MIN : Int) : ℚ) = r) :
    scrollBarPosition MIN MAX v = roundDouble (a / r) := by
  rw [scrollBarPosition_eq hMIN hMAX hv0 hv1, ha, hr]

/-- The right edge of line 481 from the values of its intermediate `double`s. -/
theorem rightPosition_eval (p : PlotTimes) (pos : ℚ) (B S : Nat) (q s : ℚ)
    (hd : p.dataInterval > p.plotInterval) (hB : add64 p.minTime p.plotInterval = B)
    (hS : sub64 p.dataInterval p.plotInterval = S) (hBr : roundDouble (B : ℚ) = (B : ℚ))
    (hSr : roundDouble (S : ℚ) = (S : ℚ)) (hq : roundDouble ((S : ℚ) * pos) = q)
    (hs : roundDouble ((B : ℚ) + q) = s) :
    rightPosition p pos = toQuint64 s := by
  rw [rightPosition_unfold p pos hd, hB, hS, hBr, hSr, hq, hs]

/-- The conversion of a nonnegative `double` below `2 ^ 64` with integer part `n`. -/
theorem toQuint64_eval (s : ℚ) (n : Nat) (h0 : (n : ℚ) ≤ s) (h1 : s < (n : ℚ) + 1)
    (hn : n + 1 < quint64Size) : toQuint64 s = n := by
  have hs0 : 0 ≤ s := le_trans (Nat.cast_nonneg n) h0
  have hs1 : s < (quint64Size : ℚ) := by
    have : ((n + 1 : Nat) : ℚ) < ((quint64Size : Nat) : ℚ) := by exact_mod_cast hn
    push_cast at this
    linarith
  rw [toQuint64_eq hs0 hs1]
  have : ⌊s⌋ = (n : Int) := by
    rw [Int.floor_eq_iff]
    exact ⟨by exact_mod_cast h0, by exact_mod_cast h1⟩
  rw [this]
  rfl

/-- With `MIN = 0`, `MAX = 100`, `minTime = 0`, `plotInterval = 1` and `dataInterval = 101`
the scrollbar value `58` requests the right edge `58`: the position is the `double` just
below `0.58`, the product the `double` just below `58`. -/
theorem rightPosition_eval_58 :
    rightPosition ⟨0, 1, 101⟩ (scrollBarPosition 0 100 58) = 58 := by
  have hpos : scrollBarPosition 0 100 58 = 5224175567749775 / 9007199254740992 := by
    rw [scrollBarPosition_eval 58 100 (by decide) (by decide) (by decide) (by decide)
      (by norm_num) (by norm_num),
      roundDouble_eval (58 / 100) (-53) 5224175567749775 (by norm_num [zpow_neg])
        (by norm_num [zpow_neg]) (by norm_num [zpow_neg]) (by norm_num [zpow_neg])]
    norm_num [zpow_neg]
  have hq : roundDouble (((100 : Nat) : ℚ) * (5224175567749775 / 9007199254740992))
      = 8162774324609023 / 140737488355328 := by
    rw [roundDouble_eval _ (-47) 8162774324609023 (by norm_num [zpow_neg])
      (by norm_num [zpow_neg]) (by norm_num [zpow_neg]) (by norm_num [zpow_neg])]
    norm_num [zpow_neg]
  have hs : roundDouble (((1 : Nat) : ℚ) + 8162774324609023 / 140737488355328)
      = 8303511812964351 / 140737488355328 := by
    rw [roundDouble_eval _ (-47) 8303511812964351 (by norm_num [zpow_neg])
      (by norm_num [zpow_neg]) (by norm_num [zpow_neg]) (by norm_num [zpow_neg])]
    norm_num [zpow_neg]
  rw [hpos, rightPosition_eval ⟨0, 1, 101⟩ _ 1 100 _ _ (by decide) (by decide) (by decide)
    (roundDouble_natCast 1 (by norm_num)) (roundDouble_natCast 100 (by norm_num)) hq hs]
  exact toQuint64_eval _ 58 (by norm_num) (by norm_num) (by decide)

/-- With `minTime = 0`, `plotInterval = 60000`, `dataInterval = 120000`, `MIN = 0` and
`MAX = 1000` the scrollbar value `500` requests the right edge `90000`; every `double` of
the computation is exact. -/
theorem rightPosition_eval_500 :
    rightPosition ⟨0, 60000, 120000⟩ (scrollBarPosition 0 1000 500) = 90000 := by
  have hpos : scrollBarPosition 0 1000 500 = 1 / 2 := by
    rw [scrollBarPosition_eval 500 1000 (by decide) (by decide) (by decide) (by decide)
      (by norm_num) (by norm_num)]
    have h := roundDouble_div_32 16 (by norm_num)
    norm_num at h ⊢
    exact h
  have hq : roundDouble (((60000 : Nat) : ℚ) * (1 / 2)) = ((30000 : Nat) : ℚ) := by
    have h := roundDouble_natCast 30000 (by norm_num)
    norm_num at h ⊢
    exact h
  have hs : roundDouble (((60000 : Nat) : ℚ) + ((30000 : Nat) : ℚ)) = ((90000 : Nat) : ℚ) := by
    have h := roundDouble_natCast 90000 (by norm_num)
    norm_num at h ⊢
    exact h
  rw [hpos, rightPosition_eval ⟨0, 60000, 120000⟩ _ 60000 60000 _ _ (by decide) (by decide)
    (by decide) (roundDouble_natCast 60000 (by norm_num))
    (roundDouble_natCast 60000 (by norm_num)) hq hs]
  exact toQuint64_eval _ 90000 (by norm_num) (by norm_num) (by decide)

/-- The `double` nearest to a number of `[0, 1]` lies in `[0, 1]`, within `2 ^ (-54)`. -/
theorem roundDouble_unit {q : ℚ} (h0 : 0 ≤ q) (h1 : q ≤ 1) :
    0 ≤ roundDouble q ∧ roundDouble q ≤ 1 ∧ |roundDouble q - q| ≤ 1 / 18014398509481984 := by
  refine ⟨roundDouble_nonneg h0, ?_, ?_⟩
  · have := roundDouble_mono h1
    rwa [roundDouble_one] at this
  · rcases h1.lt_or_eq with hlt | heq
    · have := roundDouble_sub_le 0 h0 (by simpa using hlt)
      have hpow : (2 : ℚ) ^ ((0 : Int) - 54) = 1 / 18014398509481984 := by
        norm_num [zpow_neg]
      rwa [hpow] at this
    · rw [heq, roundDouble_one]
      norm_num

/-- The relative window position from the values of its intermediate `double`s. -/
theorem relativePosition_eval (p : PlotTimes) (position k S : Nat) (y : ℚ)
    (hd : p.dataInterval > p.plotInterval)
    (hk : sub64 (sub64 position p.minTime) p.plotInterval = k)
    (hS : sub64 p.dataInterval p.plotInterval = S) (hkr : roundDouble (k : ℚ) = (k : ℚ))
    (hSr : roundDouble (S : ℚ) = (S : ℚ)) (hy : roundDouble ((k : ℚ) / (S : ℚ)) = y) :
    relativePosition p position = (false, y) := by
  unfold relativePosition
  rw [if_pos hd]
  simp only [hk, hS, hkr, hSr, hy]

/-- The conversion to `int` of a nonnegative `double` with integer part `n`. -/
theorem truncate_eval (s : ℚ) (n : Nat) (h0 : (n : ℚ) ≤ s) (h1 : s < (n : ℚ) + 1) :
    truncate s = (n : Int) := by
  rw [truncate_of_nonneg (le_trans (Nat.cast_nonneg n) h0), Int.floor_eq_iff]
  exact ⟨by exact_mod_cast h0, by exact_mod_cast h1⟩

/-- The right edge requested for a scrollbar value `v` of `[MIN, MAX]`, with the data
interval below `2 ^ 52`, is `minTime + plotInterval + k` with `k` in the scroll interval,
more than `7 / 4` below and at most `3 / 4` above
`(dataInterval - plotInterval) * (v - MIN) / (MAX - MIN)`. -/
theorem rightEdge_offset {MIN MAX v : Int} (p : PlotTimes) (hMIN : IsInt MIN)
    (hMAX : IsInt MAX) (hM : MIN < MAX) (hv0 : MIN ≤ v) (hv1 : v ≤ MAX)
    (hd : p.dataInterval > p.plotInterval) (hmax : p.minTime + p.dataInterval < 2 ^ 52) :
    ∃ k : Nat, k ≤ p.dataInterval - p.plotInterval
      ∧ rightPosition p (scrollBarPosition MIN MAX v) = p.minTime + p.plotInterval + k
      ∧ ((p.dataInterval - p.plotInterval : Nat) : ℚ)
            * (((v - MIN : Int) : ℚ) / ((MAX - MIN : Int) : ℚ)) - 7 / 4 < (k : ℚ)
      ∧ (k : ℚ) ≤ ((p.dataInterval - p.plotInterval : Nat) : ℚ)
            * (((v - MIN : Int) : ℚ) / ((MAX - MIN : Int) : ℚ)) + 3 / 4 := by
  obtain ⟨x, hx, hxlo, hxhi, hxerr⟩ := rightEdge_spec p hMIN hMAX hM hv0 hv1 hd hmax
  have hx0 : (0 : ℚ) ≤ x := le_trans (Nat.cast_nonneg _) hxlo
  have hf0 : ((p.minTime + p.plotInterval : Nat) : Int) ≤ ⌊x⌋ := by
    rw [Int.le_floor]; exact_mod_cast hxlo
  have hfl := Int.floor_le x
  have hfu := Int.lt_floor_add_one x
  have hf1 : ⌊x⌋ ≤ ((p.minTime + p.dataInterval : Nat) : Int) := by
    have h2 : ((⌊x⌋ : Int) : ℚ) ≤ (((p.minTime + p.dataInterval : Nat) : Int) : ℚ) := by
      push_cast at hxhi ⊢
      linarith
    exact_mod_cast h2
  have hk : ⌊x⌋.toNat
      = p.minTime + p.plotInterval + (⌊x⌋.toNat - (p.minTime + p.plotInterval)) := by
    omega
  have hkx : ((p.minTime + p.plotInterval : Nat) : ℚ)
      + ((⌊x⌋.toNat - (p.minTime + p.plotInterval) : Nat) : ℚ) = ((⌊x⌋ : Int) : ℚ) := by
    have h1 : ((⌊x⌋.toNat : Nat) : Int) = ⌊x⌋ :=
      Int.toNat_of_nonneg (Int.floor_nonneg.mpr hx0)
    have h2 : (((p.minTime + p.plotInterval
        + (⌊x⌋.toNat - (p.minTime + p.plotInterval)) : Nat) : Int) : ℚ)
        = ((⌊x⌋ : Int) : ℚ) := by
      rw [← hk, h1]
    push_cast at h2 ⊢
    linarith
  have e2 := abs_le.mp hxerr
  refine ⟨⌊x⌋.toNat - (p.minTime + p.plotInterval), by omega, by rw [hx]; exact hk, ?_, ?_⟩
  · linarith [e2.1]
  · linarith [e2.2]

/-- The scrollbar value requested for the right edge `minTime + plotInterval + k`, with `k`
in the scroll interval and the data interval below `2 ^ 52`, is the floor of a `double`
within `2 ^ (-21)` of `k / (dataInterval - plotInterval) * (MAX - MIN)`. -/
theorem scrollbarRequests_offset {MIN MAX : Int} (p : PlotTimes) (k : Nat) (hMIN : IsInt MIN)
    (hMAX : IsInt MAX) (hM : MIN < MAX) (hd : p.dataInterval > p.plotInterval)
    (hmax : p.minTime + p.dataInterval < 2 ^ 52) (hkS : k ≤ p.dataInterval - p.plotInterval) :
    ∃ z : ℚ, scrollbarRequests
          (setPlotWindowPosition_quint64 MIN MAX p (p.minTime + p.plotInterval + k)) = [⌊z⌋]
      ∧ 0 ≤ z
      ∧ |z - (k : ℚ) / ((p.dataInterval - p.plotInterval : Nat) : ℚ)
            * ((MAX - MIN : Int) : ℚ)| ≤ 1 / 2097152 := by
  have hq : p.IsQuint64 := by
    unfold PlotTimes.IsQuint64 quint64Size
    omega
  have hrel := relativePosition_offset p k hq hd (by unfold quint64Size; omega)
  rw [roundDouble_natCast k (by omega),
    roundDouble_natCast (p.dataInterval - p.plotInterval) (by omega)] at hrel
  have hSpos : 0 < p.dataInterval - p.plotInterval := Nat.sub_pos_of_lt hd
  have hσ0 : (0 : ℚ) < ((p.dataInterval - p.plotInterval : Nat) : ℚ) := by
    exact_mod_cast hSpos
  have hkσ : (k : ℚ) ≤ ((p.dataInterval - p.plotInterval : Nat) : ℚ) := by
    exact_mod_cast hkS
  have hr0 : (0 : ℚ) < ((MAX - MIN : Int) : ℚ) := by exact_mod_cast sub_pos.mpr hM
  have hr32 : ((MAX - MIN : Int) : ℚ) ≤ 4294967295 := by
    have h : MAX - MIN ≤ 4294967295 := by
      unfold IsInt at hMIN hMAX
      omega
    exact_mod_cast h
  obtain ⟨hy0, hy1, hyerr⟩ :=
    roundDouble_unit (div_nonneg (Nat.cast_nonneg k) hσ0.le) ((div_le_one hσ0).mpr hkσ)
  have e3 := abs_le.mp hyerr
  have hyr0 : (0 : ℚ) ≤ roundDouble ((k : ℚ) / ((p.dataInterval - p.plotInterval : Nat) : ℚ))
      * ((MAX - MIN : Int) : ℚ) := mul_nonneg hy0 hr0.le
  have hyr1 : roundDouble ((k : ℚ) / ((p.dataInterval - p.plotInterval : Nat) : ℚ))
      * ((MAX - MIN : Int) : ℚ) < (2 : ℚ) ^ (32 : Int) := by
    have h32 : (2 : ℚ) ^ (32 : Int) = 4294967296 := by norm_num
    rw [h32]
    have h1 := mul_le_mul_of_nonneg_right hy1 hr0.le
    linarith
  have hzerr := roundDouble_sub_le 32 hyr0 hyr1
  have hpow : (2 : ℚ) ^ ((32 : Int) - 54) = 1 / 4194304 := by norm_num [zpow_neg]
  rw [hpow] at hzerr
  have e4 := abs_le.mp hzerr
  refine ⟨_, ?_, roundDouble_nonneg hyr0, ?_⟩
  · rw [scrollbarRequests_quint64, hrel]
    simp only []
    rw [truncate_of_nonneg (roundDouble_nonneg hyr0)]
  · have h1 := mul_le_mul_of_nonneg_right e3.1 hr0.le
    have h2 := mul_le_mul_of_nonneg_right e3.2 hr0.le
    rw [abs_le]
    constructor <;> nlinarith [e4.1, e4.2]

/-- The arithmetic of the round trip: a right-edge offset `k` within `(-7 / 4, 3 / 4]` of
`σ * (v / r)`, with `0 < r ≤ σ`, maps back to a value whose floor is within two of `v`. -/
theorem roundTrip_arith {σ r k z : ℚ} {v : Int} (hσ0 : 0 < σ) (hr0 : 0 < r) (hrσ : r ≤ σ)
    (hlo : σ * ((v : ℚ) / r) - 7 / 4 < k) (hhi : k ≤ σ * ((v : ℚ) / r) + 3 / 4)
    (hzerr : |z - k / σ * r| ≤ 1 / 2097152) : |⌊z⌋ - v| ≤ 2 := by
  have ht0 : 0 < r / σ := div_pos hr0 hσ0
  have ht1 : r / σ ≤ 1 := (div_le_one hσ0).mpr hrσ
  have hvt : σ * ((v : ℚ) / r) * (r / σ) = (v : ℚ) := by field_simp
  have hkt : k / σ * r = k * (r / σ) := by field_simp
  have e4 := abs_le.mp hzerr
  rw [hkt] at e4
  have h1 := mul_lt_mul_of_pos_right hlo ht0
  have h2 := mul_le_mul_of_nonneg_right hhi ht0.le
  have h1' : (v : ℚ) - 7 / 4 * (r / σ) < k * (r / σ) := by
    have : (σ * ((v : ℚ) / r) - 7 / 4) * (r / σ)
        = σ * ((v : ℚ) / r) * (r / σ) - 7 / 4 * (r / σ) := by ring
    rw [this, hvt] at h1
    exact h1
  have h2' : k * (r / σ) ≤ (v : ℚ) + 3 / 4 * (r / σ) := by
    have : (σ * ((v : ℚ) / r) + 3 / 4) * (r / σ)
        = σ * ((v : ℚ) / r) * (r / σ) + 3 / 4 * (r / σ) := by ring
    rw [this, hvt] at h2
    exact h2
  have hlo' : v - 2 ≤ ⌊z⌋ := by
    rw [Int.le_floor]
    push_cast
    linarith [e4.1]
  have hhi' : ⌊z⌋ < v + 1 := by
    rw [Int.floor_lt]
    push_cast
    linarith [e4.2]
  rw [abs_le]
  constructor <;> omega

/-- A value of a range inside `(-2 ^ 17, 2 ^ 17)` that issues a reposition request is at
least one hundredth of the range below `MAX`. -/
theorem le_of_repositionRequests {MIN MAX v : Int} {p : PlotTimes} {e : Nat}
    (hlo : -2 ^ 17 < MIN) (hhi : MAX < 2 ^ 17) (hM : MIN < MAX) (hv0 : MIN ≤ v)
    (hv1 : v ≤ MAX)
    (hreq : repositionRequests (setPlotWindowPosition_int MIN MAX p v) = [e]) :
    ¬ atRightEdge MIN MAX v ∧ 100 * (v - MIN) ≤ 99 * (MAX - MIN)
      ∧ e = rightPosition p (scrollBarPosition MIN MAX v) := by
  rw [repositionRequests_int] at hreq
  by_cases hna : atRightEdge MIN MAX v
  · rw [if_pos hna] at hreq
    exact absurd hreq (by simp)
  · rw [if_neg hna] at hreq
    refine ⟨hna, ?_, (List.head_eq_of_cons_eq hreq).symm⟩
    rw [atRightEdge_iff_of_range hlo hhi hM hv0 hv1] at hna
    omega

/-- The offset of a right edge requested for a value at least one hundredth of the range
below `MAX` is at most `99 / 100` of the scroll interval plus `3 / 4`. -/
theorem offset_le_of_le {σ a r k : ℚ} (hσ0 : 0 ≤ σ) (hr0 : 0 < r) (ha : 100 * a ≤ 99 * r)
    (hk : k ≤ σ * (a / r) + 3 / 4) : σ / 100 - 3 / 4 ≤ σ - k := by
  have h1 : a / r ≤ 99 / 100 := by
    rw [div_le_iff₀ hr0]; linarith
  have h2 : σ * (a / r) ≤ σ * (99 / 100) := mul_le_mul_of_nonneg_left h1 hσ0
  linarith

/-- The offset of the right edge requested for the value `MAX - c`, with
`r <= 100 * c <= r + 99`, is less than `σ / 100 + σ / r + 7 / 4` below the scroll
interval. -/
theorem offset_gt_of_top {σ r c k : ℚ} (hσ0 : 0 < σ) (hr0 : 0 < r) (hc : 100 * c ≤ r + 99)
    (hk : σ * ((r - c) / r) - 7 / 4 < k) : σ - k < σ / 100 + σ / r + 7 / 4 := by
  have e : σ * ((r - c) / r) = σ - σ / r * c := by
    field_simp
    ring
  have hσr : 0 < σ / r := div_pos hσ0 hr0
  have h1 : σ / r * (100 * c) ≤ σ / r * (r + 99) := mul_le_mul_of_nonneg_left hc hσr.le
  have e2 : σ / r * (r + 99) = σ + 99 * (σ / r) := by
    field_simp
    ring
  rw [e] at hk
  rw [e2] at h1
  linarith

/-! ## Scrollbar value to right edge -/

/-- C2 (counterexample): with `MIN = 0` and `MAX = 264801` the scrollbar value `262153`
lies above `MAX - (MAX - MIN) / 100 = 262152.99`, yet the call disables auto-follow and
issues a reposition request: the `float` product of the range and `0.01f` is
`2648.010009765625` and the `float` difference `MAX - 2648.010009765625` rounds to
`262153`, which the value does not exceed. -/
theorem autoFollow_counterexample :
    ((262153 : Int) : ℚ) > ((264801 : Int) : ℚ) - (((264801 : Int) : ℚ) - ((0 : Int) : ℚ)) / 100
      ∧ ¬ atRightEdge 0 264801 262153
      ∧ autoScrollCalls (setPlotWindowPosition_int 0 264801 ⟨0, 60000, 120000⟩ 262153)
          = [false]
      ∧ (repositionRequests
          (setPlotWindowPosition_int 0 264801 ⟨0, 60000, 120000⟩ 262153)).length = 1 := by
  have hna : ¬ atRightEdge 0 264801 262153 := by
    unfold atRightEdge
    have hr : roundFloat (((264801 - 0 : Int)) : ℚ) = 264801 := by
      have h := roundFloat_intCast 264801 (by norm_num)
      norm_num at h ⊢
      exact h
    have hM : roundFloat ((264801 : Int) : ℚ) = 264801 := by
      have h := roundFloat_intCast 264801 (by norm_num)
      norm_num at h ⊢
      exact h
    have hv : roundFloat ((262153 : Int) : ℚ) = 262153 := by
      have h := roundFloat_intCast 262153 (by norm_num)
      norm_num at h ⊢
      exact h
    have hP : roundFloat ((264801 : ℚ) * (10737418 / 1073741824)) = 10846249 / 4096 := by
      rw [roundFloat_eval _ (-12) 10846249 (by norm_num [zpow_neg])
        (by norm_num [zpow_neg]) (by norm_num [zpow_neg]) (by norm_num [zpow_neg])]
      norm_num [zpow_neg]
    have hT : roundFloat ((264801 : ℚ) - 10846249 / 4096) = 262153 := by
      rw [roundFloat_eval _ (-5) 8388896 (by norm_num [zpow_neg])
        (by norm_num [zpow_neg]) (by norm_num [zpow_neg]) (by norm_num [zpow_neg])]
      norm_num [zpow_neg]
    rw [hr, hM, hv, autoFollowFraction_eq, hP, hT]
    exact lt_irrefl _
  refine ⟨by norm_num, hna, ?_, ?_⟩
  · rw [autoScrollCalls_int]
    simp [hna]
  · rw [repositionRequests_int, if_neg hna]
    rfl

/-- C2 (amended): for a scrollbar range inside `(-2 ^ 17, 2 ^ 17)` and a value `v` in
`[MIN, MAX]`, the call enables auto-follow and issues no reposition request exactly when
`v` is above `MAX - (MAX - MIN) / 100`; for every other `v` it disables auto-follow and
issues exactly one reposition request; in particular the boundary value
`v = MAX - (MAX - MIN) / 100` does not enable auto-follow. -/
theorem autoFollow_iff_top_percent (MIN MAX v : Int) (p : PlotTimes)
    (hlo : -2 ^ 17 < MIN) (hhi : MAX < 2 ^ 17) (hM : MIN < MAX) (hv0 : MIN ≤ v)
    (hv1 : v ≤ MAX) :
    ((autoScrollCalls (setPlotWindowPosition_int MIN MAX p v) = [true]
        ∧ repositionRequests (setPlotWindowPosition_int MIN MAX p v) = [])
      ↔ (v : ℚ) > (MAX : ℚ) - ((MAX : ℚ) - (MIN : ℚ)) / 100)
    ∧ (¬ ((v : ℚ) > (MAX : ℚ) - ((MAX : ℚ) - (MIN : ℚ)) / 100) →
        autoScrollCalls (setPlotWindowPosition_int MIN MAX p v) = [false]
          ∧ (repositionRequests (setPlotWindowPosition_int MIN MAX p v)).length = 1)
    ∧ ((v : ℚ) = (MAX : ℚ) - ((MAX : ℚ) - (MIN : ℚ)) / 100 →
        autoScrollCalls (setPlotWindowPosition_int MIN MAX p v) = [false]) := by
  rw [← atRightEdge_iff_rat hlo hhi hM hv0 hv1, autoScrollCalls_int, repositionRequests_int]
  refine ⟨⟨?_, ?_⟩, ?_, ?_⟩
  · rintro ⟨h, -⟩
    simpa using h
  · intro h
    simp [h]
  · intro h
    simp [h]
  · intro h
    have : ¬ atRightEdge MIN MAX v := by
      rw [atRightEdge_iff_rat hlo hhi hM hv0 hv1, h]; exact lt_irrefl _
    simp [this]

/-- C2 (witness): for `MIN = 0` and `MAX = 1000` the boundary value `990` does not enable
auto-follow. -/
theorem autoFollow_iff_top_percent_witness :
    autoScrollCalls (setPlotWindowPosition_int 0 1000 ⟨0, 60000, 120000⟩ 990) = [false] :=
  (autoFollow_iff_top_percent 0 1000 990 ⟨0, 60000, 120000⟩ (by decide) (by decide)
    (by decide) (by decide) (by decide)).2.2 (by norm_num)

/-! ## Round trip and range of the window position -/

/-- C3 (counterexample): two round trips that miss the scrollbar value by more than one.
With `MIN = 0`, `MAX = 1000`, `minTime = 0`, `plotInterval = 10` and `dataInterval = 11`
the scrollbar value `500` requests the right edge `10`, and the right edge `10` requests
the scrollbar value `0`. With `MIN = 0`, `MAX = 100`, `minTime = 0`, `plotInterval = 1`
and `dataInterval = 101`, where the scroll interval equals the scrollbar range, the value
`58` requests the right edge `58` (the `double` product `100 * 0.58` lies below `58`), and
the right edge `58` requests the scrollbar value `56` (the `double` product `0.57 * 100`
lies below `57`). -/
theorem roundTrip_counterexample :
    (¬ atRightEdge 0 1000 500
        ∧ repositionRequests (setPlotWindowPosition_int 0 1000 ⟨0, 10, 11⟩ 500) = [10]
        ∧ scrollbarRequests (setPlotWindowPosition_quint64 0 1000 ⟨0, 10, 11⟩ 10) = [0]
        ∧ ¬ (|(0 : Int) - 500| ≤ 1))
      ∧ (¬ atRightEdge 0 100 58
        ∧ repositionRequests (setPlotWindowPosition_int 0 100 ⟨0, 1, 101⟩ 58) = [58]
        ∧ scrollbarRequests (setPlotWindowPosition_quint64 0 100 ⟨0, 1, 101⟩ 58) = [56]
        ∧ ¬ (|(56 : Int) - 58| ≤ 1)) := by
  have hna1 : ¬ atRightEdge 0 1000 500 :=
    not_atRightEdge_of_le (by decide) (by decide) (by decide) (by decide) (by decide)
      (by decide)
  have hna2 : ¬ atRightEdge 0 100 58 :=
    not_atRightEdge_of_le (by decide) (by decide) (by decide) (by decide) (by decide)
      (by decide)
  refine ⟨⟨hna1, ?_, ?_, by decide⟩, hna2, ?_, ?_, by decide⟩
  · have hpos : scrollBarPosition 0 1000 500 = 1 / 2 := by
      rw [scrollBarPosition_eval 500 1000 (by decide) (by decide) (by decide) (by decide)
        (by norm_num) (by norm_num)]
      have h := roundDouble_div_32 16 (by norm_num)
      norm_num at h ⊢
      exact h
    have hq : roundDouble (((1 : Nat) : ℚ) * (1 / 2)) = 1 / 2 := by
      have h := roundDouble_div_32 16 (by norm_num)
      norm_num at h ⊢
      exact h
    have hs : roundDouble (((10 : Nat) : ℚ) + 1 / 2) = 21 / 2 := by
      have h := roundDouble_div_32 336 (by norm_num)
      norm_num at h ⊢
      exact h
    rw [repositionRequests_int, if_neg hna1, hpos,
      rightPosition_eval ⟨0, 10, 11⟩ _ 10 1 _ _ (by decide) (by decide) (by decide)
        (roundDouble_natCast 10 (by norm_num)) (roundDouble_natCast 1 (by norm_num)) hq hs,
      toQuint64_eval _ 10 (by norm_num) (by norm_num) (by decide)]
  · have hy : roundDouble (((0 : Nat) : ℚ) / ((1 : Nat) : ℚ)) = 0 := by
      norm_num [roundDouble_zero]
    rw [scrollbarRequests_quint64,
      relativePosition_eval ⟨0, 10, 11⟩ 10 0 1 0 (by decide) (by decide) (by decide)
        (roundDouble_natCast 0 (by norm_num)) (roundDouble_natCast 1 (by norm_num)) hy]
    norm_num [roundDouble_zero, truncate]
  · rw [repositionRequests_int, if_neg hna2, rightPosition_eval_58]
  · have hy : roundDouble (((57 : Nat) : ℚ) / ((100 : Nat) : ℚ))
        = 5134103575202365 / 9007199254740992 := by
      rw [roundDouble_eval _ (-53) 5134103575202365 (by norm_num [zpow_neg])
        (by norm_num [zpow_neg]) (by norm_num [zpow_neg]) (by norm_num [zpow_neg])]
      norm_num [zpow_neg]
    have hz : roundDouble ((5134103575202365 / 9007199254740992 : ℚ)
          * (((100 - 0 : Int)) : ℚ))
        = 8022036836253695 / 140737488355328 := by
      rw [roundDouble_eval _ (-47) 8022036836253695 (by norm_num [zpow_neg])
        (by norm_num [zpow_neg]) (by norm_num [zpow_neg]) (by norm_num [zpow_neg])]
      norm_num [zpow_neg]
    rw [scrollbarRequests_quint64,
      relativePosition_eval ⟨0, 1, 101⟩ 58 57 100 _ (by decide) (by decide) (by decide)
        (roundDouble_natCast 57 (by norm_num)) (roundDouble_natCast 100 (by norm_num)) hy]
    simp only []
    rw [hz, truncate_eval _ 56 (by norm_num) (by norm_num)]
    rfl

/-- C3 (amended): for `MIN = 0 < MAX` (an `int`), readings with
`dataInterval > plotInterval`, `minTime + dataInterval < 2 ^ 52` and a scroll interval
`dataInterval - plotInterval` of at least `MAX - MIN`, and a scrollbar value `v` in
`[MIN, MAX]` that does not trigger auto-follow: feeding the right edge that
`setPlotWindowPosition(int)` requests for `v` into `setPlotWindowPosition(quint64)` makes
it request a scrollbar value `w` with `|w - v| <= 2`. -/
theorem roundTrip_within_two (MIN MAX v : Int) (p : PlotTimes) (hMIN : MIN = 0)
    (hMAX : IsInt MAX) (hM : MIN < MAX) (hv0 : MIN ≤ v) (hv1 : v ≤ MAX)
    (hna : ¬ atRightEdge MIN MAX v) (hd : p.dataInterval > p.plotInterval)
    (hmax : p.minTime + p.dataInterval < 2 ^ 52)
    (hS : MAX - MIN ≤ (p.dataInterval : Int) - (p.plotInterval : Int)) :
    ∃ (e : Nat) (w : Int),
      repositionRequests (setPlotWindowPosition_int MIN MAX p v) = [e]
        ∧ scrollbarRequests (setPlotWindowPosition_quint64 MIN MAX p e) = [w]
        ∧ |w - v| ≤ 2 := by
  have hMIN0 : IsInt MIN := by rw [hMIN]; decide
  obtain ⟨k, hkS, hreq, hlo, hhi⟩ :=
    rightEdge_offset p hMIN0 hMAX hM hv0 hv1 hd hmax
  obtain ⟨z, hback, hz0, hzerr⟩ :=
    scrollbarRequests_offset p k hMIN0 hMAX hM hd hmax hkS
  refine ⟨_, ⌊z⌋, by rw [repositionRequests_int, if_neg hna, hreq], hback, ?_⟩
  subst hMIN
  simp only [sub_zero] at hlo hhi hzerr hS
  have hSpos : 0 < p.dataInterval - p.plotInterval := Nat.sub_pos_of_lt hd
  have hσ0 : (0 : ℚ) < ((p.dataInterval - p.plotInterval : Nat) : ℚ) := by
    exact_mod_cast hSpos
  have hr0 : (0 : ℚ) < (MAX : ℚ) := by exact_mod_cast hM
  have hrσ : (MAX : ℚ) ≤ ((p.dataInterval - p.plotInterval : Nat) : ℚ) := by
    have h : (MAX : Int) ≤ ((p.dataInterval - p.plotInterval : Nat) : Int) := by
      rw [Nat.cast_sub hd.le]; exact hS
    exact_mod_cast h
  exact roundTrip_arith hσ0 hr0 hrσ hlo hhi hzerr

/-- C3 (witness): `MIN = 0`, `MAX = 1000`, `minTime = 0`, `plotInterval = 60000`,
`dataInterval = 120000` and the scrollbar value `500`. -/
theorem roundTrip_within_two_witness :
    ∃ (e : Nat) (w : Int),
      repositionRequests (setPlotWindowPosition_int 0 1000 ⟨0, 60000, 120000⟩ 500) = [e]
        ∧ scrollbarRequests (setPlotWindowPosition_quint64 0 1000 ⟨0, 60000, 120000⟩ e) = [w]
        ∧ |w - 500| ≤ 2 :=
  roundTrip_within_two 0 1000 500 ⟨0, 60000, 120000⟩ rfl (by decide) (by decide) (by decide)
    (by decide)
    (not_atRightEdge_of_le (by decide) (by decide) (by decide) (by decide) (by decide)
      (by decide))
    (by decide) (by decide) (by decide)

/-- C4 (counterexample): with `MIN = 0`, `MAX = 1000`, `minTime = 0`, `plotInterval = 10`
and `dataInterval = 20` the reported position `40` gives `pos = 3` and the scrollbar
request `3000`, outside `[0, 1]` and `[MIN, MAX]`. -/
theorem relativePosition_counterexample :
    (relativePosition ⟨0, 10, 20⟩ 40).2 = 3
      ∧ scrollbarRequests (setPlotWindowPosition_quint64 0 1000 ⟨0, 10, 20⟩ 40) = [3000]
      ∧ ¬ ((3 : ℚ) ≤ 1) ∧ ¬ ((3000 : Int) ≤ 1000) := by
  have hy : roundDouble (((30 : Nat) : ℚ) / ((10 : Nat) : ℚ)) = 3 := by
    have h := roundDouble_natCast 3 (by norm_num)
    norm_num at h ⊢
    exact h
  have h' : relativePosition ⟨0, 10, 20⟩ 40 = (false, 3) :=
    relativePosition_eval ⟨0, 10, 20⟩ 40 30 10 3 (by decide) (by decide) (by decide)
      (roundDouble_natCast 30 (by norm_num)) (roundDouble_natCast 10 (by norm_num)) hy
  have hz : roundDouble ((3 : ℚ) * (((1000 - 0 : Int)) : ℚ)) = ((3000 : Nat) : ℚ) := by
    have h := roundDouble_natCast 3000 (by norm_num)
    norm_num at h ⊢
    exact h
  refine ⟨by rw [h'], ?_, by norm_num, by decide⟩
  rw [scrollbarRequests_quint64, h']
  simp only []
  rw [hz, truncate_eval _ 3000 le_rfl (by norm_num)]
  rfl

/-- C4 (amended): for `MIN = 0 < MAX` (an `int`) and `quint64` readings with
`dataInterval > plotInterval`, every reported position inside the data interval,
`minTime + plotInterval <= position <= minTime + dataInterval`, gives a fraction
`pos = (position - minTime - plotInterval) / (dataInterval - plotInterval)` in `[0, 1]`
and exactly one scrollbar request, whose value lies in `[MIN, MAX]`. -/
theorem relativePosition_in_range (MIN MAX : Int) (p : PlotTimes) (position : Nat)
    (hMIN : MIN = 0) (hMAX : IsInt MAX) (hM : MIN < MAX) (hq : p.IsQuint64)
    (hd : p.dataInterval > p.plotInterval) (hpos : position < 2 ^ 64)
    (hlo : p.minTime + p.plotInterval ≤ position)
    (hhi : position ≤ p.minTime + p.dataInterval) :
    0 ≤ (relativePosition p position).2 ∧ (relativePosition p position).2 ≤ 1
      ∧ ∃ w : Int, scrollbarRequests (setPlotWindowPosition_quint64 MIN MAX p position) = [w]
          ∧ MIN ≤ w ∧ w ≤ MAX := by
  obtain ⟨k, rfl⟩ := Nat.exists_eq_add_of_le hlo
  have hkS : k ≤ p.dataInterval - p.plotInterval := by omega
  have hSpos : 0 < p.dataInterval - p.plotInterval := Nat.sub_pos_of_lt hd
  have hrel := relativePosition_offset p k hq hd (by unfold quint64Size; omega)
  obtain ⟨hy0, hy1⟩ := roundDouble_div_bounds hSpos hkS
  subst hMIN
  have hr0 : (0 : ℚ) < ((MAX - 0 : Int) : ℚ) := by exact_mod_cast sub_pos.mpr hM
  have hrr : roundDouble ((MAX - 0 : Int) : ℚ) = ((MAX - 0 : Int) : ℚ) :=
    roundDouble_intCast _ (by
      unfold IsInt at hMAX
      rw [abs_le]; constructor <;> omega)
  rw [scrollbarRequests_quint64, hrel]
  simp only []
  set y : ℚ := roundDouble (roundDouble (k : ℚ)
    / roundDouble ((p.dataInterval - p.plotInterval : Nat) : ℚ)) with hy
  have hyr0 : 0 ≤ y * ((MAX - 0 : Int) : ℚ) := mul_nonneg hy0 hr0.le
  have hyr1 : y * ((MAX - 0 : Int) : ℚ) ≤ ((MAX - 0 : Int) : ℚ) := by
    have := mul_le_mul_of_nonneg_right hy1 hr0.le
    linarith
  have hz0 : 0 ≤ roundDouble (y * ((MAX - 0 : Int) : ℚ)) := roundDouble_nonneg hyr0
  have hz1 : roundDouble (y * ((MAX - 0 : Int) : ℚ)) ≤ ((MAX - 0 : Int) : ℚ) := by
    have := roundDouble_mono hyr1
    rwa [hrr] at this
  refine ⟨hy0, hy1, _, rfl, ?_, ?_⟩
  · rw [truncate_of_nonneg hz0]
    exact Int.floor_nonneg.mpr hz0
  · rw [truncate_of_nonneg hz0]
    have h := Int.floor_le (roundDouble (y * ((MAX - 0 : Int) : ℚ)))
    have h2 : ((⌊roundDouble (y * ((MAX - 0 : Int) : ℚ))⌋ : Int) : ℚ) ≤ ((MAX : Int) : ℚ) := by
      have : ((MAX - 0 : Int) : ℚ) = ((MAX : Int) : ℚ) := by simp
      linarith
    exact_mod_cast h2

/-- C4 (witness): `MIN = 0`, `MAX = 1000`, `minTime = 0`, `plotInterval = 60000`,
`dataInterval = 120000` and the reported position `90000`. -/
theorem relativePosition_in_range_witness :
    0 ≤ (relativePosition ⟨0, 60000, 120000⟩ 90000).2
      ∧ (relativePosition ⟨0, 60000, 120000⟩ 90000).2 ≤ 1
      ∧ ∃ w : Int,
          scrollbarRequests (setPlotWindowPosition_quint64 0 1000 ⟨0, 60000, 120000⟩ 90000)
            = [w] ∧ 0 ≤ w ∧ w ≤ 1000 :=
  relativePosition_in_range 0 1000 ⟨0, 60000, 120000⟩ 90000 rfl (by decide) (by decide)
    (by decide) (by decide) (by decide) (by decide) (by decide)

/-- C5 (failing input): with `MIN = 100`, `MAX = 1100`, `plotInterval = 60000` and
`dataInterval = 30000` the call disables the scrollbar and requests the scrollbar value
`1000 = MAX - MIN`, not `MAX = 1100`. -/
theorem shortSeries_requests_range_not_max :
    setDisabledCalls (setPlotWindowPosition_quint64 100 1100 ⟨0, 60000, 30000⟩ 60000) = [true]
      ∧ scrollbarRequests (setPlotWindowPosition_quint64 100 1100 ⟨0, 60000, 30000⟩ 60000)
          = [1000] := by
  have h : relativePosition ⟨0, 60000, 30000⟩ 60000 = (true, 1) := by
    unfold relativePosition
    rw [if_neg (by decide)]
  have hz : roundDouble ((1 : ℚ) * (((1100 - 100 : Int)) : ℚ)) = ((1000 : Nat) : ℚ) := by
    have h := roundDouble_natCast 1000 (by norm_num)
    norm_num at h ⊢
    exact h
  refine ⟨by rw [setDisabledCalls_quint64, h], ?_⟩
  rw [scrollbarRequests_quint64, h]
  simp only []
  rw [hz, truncate_eval _ 1000 le_rfl (by norm_num)]
  rfl

/-! ## Monotonicity and coverage -/

/-- C7 (counterexample): with `MIN = 0`, `MAX = 1000`, `minTime = 0`,
`plotInterval = 60000` and `maxTime = dataInterval = 120000` no scrollbar value in
`[MIN, MAX)` requests a right edge within one scrollbar step, `60000 / 1000 = 60`, of
`maxTime`: the values above `990` trigger auto-follow and issue no request. -/
theorem coverage_counterexample :
    ¬ ∃ (v : Int) (e : Nat), 0 ≤ v ∧ v < 1000
        ∧ repositionRequests (setPlotWindowPosition_int 0 1000 ⟨0, 60000, 120000⟩ v) = [e]
        ∧ (120000 : ℚ) - (e : ℚ) ≤ (120000 - 60000) / (1000 - 0) := by
  rintro ⟨v, e, hv0, hv1, hreq, hgap⟩
  obtain ⟨-, h99, he⟩ := le_of_repositionRequests (by decide) (by decide) (by decide) hv0
    hv1.le hreq
  obtain ⟨k, -, hk, -, hkhi⟩ := rightEdge_offset ⟨0, 60000, 120000⟩
    (show IsInt 0 by decide) (show IsInt 1000 by decide) (by decide) hv0 hv1.le
    (by decide) (by decide)
  rw [hk] at he
  have hσ : (((⟨0, 60000, 120000⟩ : PlotTimes).dataInterval
      - (⟨0, 60000, 120000⟩ : PlotTimes).plotInterval : Nat) : ℚ) = 60000 := by
    norm_num
  rw [hσ] at hkhi
  have h99q : 100 * ((v - 0 : Int) : ℚ) ≤ 99 * ((1000 - 0 : Int) : ℚ) := by
    exact_mod_cast h99
  have hb := offset_le_of_le (show (0 : ℚ) ≤ 60000 by norm_num)
    (show (0 : ℚ) < ((1000 - 0 : Int) : ℚ) by norm_num) h99q hkhi
  have heq : (e : ℚ) = 60000 + (k : ℚ) := by
    rw [he]
    push_cast
    norm_num
  rw [heq] at hgap
  norm_num at hgap hb
  linarith

/-- C7 (amended): for a scrollbar range inside `(-2 ^ 17, 2 ^ 17)` and readings with
`dataInterval > plotInterval` and `maxTime = minTime + dataInterval` below `2 ^ 52`: every
right edge requested for a scrollbar value in `[MIN, MAX]` lies in
`[minTime + plotInterval, maxTime]` and stays at least
`(dataInterval - plotInterval) / 100 - 3 / 4` below `maxTime` (the values above that issue
no request); the value `MIN` yields `minTime + plotInterval`; and some value in
`[MIN, MAX)` requests a right edge less than
`(dataInterval - plotInterval) / 100 + (dataInterval - plotInterval) / (MAX - MIN) + 2`
below `maxTime`. -/
theorem rightEdge_coverage (MIN MAX : Int) (p : PlotTimes) (hlo : -2 ^ 17 < MIN)
    (hhi : MAX < 2 ^ 17) (hM : MIN < MAX) (hd : p.dataInterval > p.plotInterval)
    (hmax : p.minTime + p.dataInterval < 2 ^ 52) :
    (∀ (v : Int) (e : Nat), MIN ≤ v → v ≤ MAX →
        repositionRequests (setPlotWindowPosition_int MIN MAX p v) = [e] →
        p.minTime + p.plotInterval ≤ e ∧ e ≤ p.minTime + p.dataInterval
          ∧ ((p.dataInterval : ℚ) - (p.plotInterval : ℚ)) / 100 - 3 / 4
              ≤ ((p.minTime : ℚ) + (p.dataInterval : ℚ)) - (e : ℚ))
      ∧ repositionRequests (setPlotWindowPosition_int MIN MAX p MIN)
          = [p.minTime + p.plotInterval]
      ∧ ∃ (v : Int) (e : Nat), MIN ≤ v ∧ v < MAX
          ∧ repositionRequests (setPlotWindowPosition_int MIN MAX p v) = [e]
          ∧ ((p.minTime : ℚ) + (p.dataInterval : ℚ)) - (e : ℚ)
              < ((p.dataInterval : ℚ) - (p.plotInterval : ℚ)) / 100
                + ((p.dataInterval : ℚ) - (p.plotInterval : ℚ)) / ((MAX : ℚ) - (MIN : ℚ))
                + 2 := by
  have hMIN : IsInt MIN := by
    unfold IsInt; constructor <;> omega
  have hMAX : IsInt MAX := by
    unfold IsInt; constructor <;> omega
  have hr0 : (0 : ℚ) < ((MAX - MIN : Int) : ℚ) := by exact_mod_cast sub_pos.mpr hM
  have hrc : ((MAX - MIN : Int) : ℚ) = (MAX : ℚ) - (MIN : ℚ) := by push_cast; ring
  have hσc : ((p.dataInterval - p.plotInterval : Nat) : ℚ)
      = (p.dataInterval : ℚ) - (p.plotInterval : ℚ) := by
    rw [Nat.cast_sub hd.le]
  have hσ0 : (0 : ℚ) < ((p.dataInterval - p.plotInterval : Nat) : ℚ) := by
    exact_mod_cast Nat.sub_pos_of_lt hd
  refine ⟨?_, ?_, ?_⟩
  · intro v e hv0 hv1 hreq
    obtain ⟨-, h99, he⟩ := le_of_repositionRequests hlo hhi hM hv0 hv1 hreq
    obtain ⟨k, hkS, hk, -, hkhi⟩ := rightEdge_offset p hMIN hMAX hM hv0 hv1 hd hmax
    rw [hk] at he
    have h99q : 100 * ((v - MIN : Int) : ℚ) ≤ 99 * ((MAX - MIN : Int) : ℚ) := by
      exact_mod_cast h99
    have hb := offset_le_of_le hσ0.le hr0 h99q hkhi
    refine ⟨by omega, by omega, ?_⟩
    rw [he, ← hσc]
    have hkq : (k : ℚ) ≤ ((p.dataInterval - p.plotInterval : Nat) : ℚ) := by
      exact_mod_cast hkS
    rw [hσc] at hb hkq ⊢
    push_cast
    linarith
  · have hna : ¬ atRightEdge MIN MAX MIN :=
      not_atRightEdge_of_le hlo hhi hM le_rfl hM.le (by omega)
    rw [repositionRequests_int, if_neg hna, scrollBarPosition_min]
    obtain ⟨x, hx, hxlo, -, hxerr⟩ := rightPosition_spec p 0 hd hmax le_rfl zero_le_one
    rw [hx]
    have e2 := abs_le.mp hxerr
    have hfl : ⌊x⌋ = ((p.minTime + p.plotInterval : Nat) : Int) := by
      rw [Int.floor_eq_iff]
      constructor
      · exact_mod_cast hxlo
      · push_cast at e2 ⊢
        linarith [e2.2]
    rw [hfl]
    rfl
  · -- the largest value that issues a request
    have hc0 : 100 * ((MAX - MIN + 99) / 100) ≤ MAX - MIN + 99 := by
      have := Int.ediv_mul_le (MAX - MIN + 99) (show (100 : Int) ≠ 0 by decide)
      omega
    have hc1 : MAX - MIN ≤ 100 * ((MAX - MIN + 99) / 100) := by
      have := Int.lt_ediv_add_one_mul_self (MAX - MIN + 99) (show (0 : Int) < 100 by decide)
      omega
    set c : Int := (MAX - MIN + 99) / 100 with hc
    have hv0 : MIN ≤ MAX - c := by omega
    have hv1 : MAX - c < MAX := by omega
    have hna : ¬ atRightEdge MIN MAX (MAX - c) :=
      not_atRightEdge_of_le hlo hhi hM hv0 hv1.le (by omega)
    obtain ⟨k, hkS, hk, hklo, -⟩ := rightEdge_offset p hMIN hMAX hM hv0 hv1.le hd hmax
    refine ⟨MAX - c, _, hv0, hv1, by rw [repositionRequests_int, if_neg hna, hk], ?_⟩
    have hcq : 100 * (c : ℚ) ≤ ((MAX - MIN : Int) : ℚ) + 99 := by
      exact_mod_cast hc0
    have hac : ((MAX - c - MIN : Int) : ℚ) = ((MAX - MIN : Int) : ℚ) - (c : ℚ) := by
      push_cast; ring
    rw [hac] at hklo
    have hb := offset_gt_of_top hσ0 hr0 hcq hklo
    rw [hσc, hrc] at hb
    push_cast
    linarith

/-- C7 (witness): `MIN = 0`, `MAX = 1000`, `minTime = 0`, `plotInterval = 60000` and
`maxTime = dataInterval = 120000`. -/
theorem rightEdge_coverage_witness :
    (∀ (v : Int) (e : Nat), 0 ≤ v → v ≤ 1000 →
        repositionRequests (setPlotWindowPosition_int 0 1000 ⟨0, 60000, 120000⟩ v) = [e] →
        (⟨0, 60000, 120000⟩ : PlotTimes).minTime
              + (⟨0, 60000, 120000⟩ : PlotTimes).plotInterval ≤ e
          ∧ e ≤ (⟨0, 60000, 120000⟩ : PlotTimes).minTime
              + (⟨0, 60000, 120000⟩ : PlotTimes).dataInterval
          ∧ (((⟨0, 60000, 120000⟩ : PlotTimes).dataInterval : ℚ)
                - ((⟨0, 60000, 120000⟩ : PlotTimes).plotInterval : ℚ)) / 100 - 3 / 4
              ≤ (((⟨0, 60000, 120000⟩ : PlotTimes).minTime : ℚ)
                  + ((⟨0, 60000, 120000⟩ : PlotTimes).dataInterval : ℚ)) - (e : ℚ))
      ∧ repositionRequests (setPlotWindowPosition_int 0 1000 ⟨0, 60000, 120000⟩ 0)
          = [(⟨0, 60000, 120000⟩ : PlotTimes).minTime
              + (⟨0, 60000, 120000⟩ : PlotTimes).plotInterval]
      ∧ ∃ (v : Int) (e : Nat), 0 ≤ v ∧ v < 1000
          ∧ repositionRequests (setPlotWindowPosition_int 0 1000 ⟨0, 60000, 120000⟩ v) = [e]
          ∧ (((⟨0, 60000, 120000⟩ : PlotTimes).minTime : ℚ)
                + ((⟨0, 60000, 120000⟩ : PlotTimes).dataInterval : ℚ)) - (e : ℚ)
              < (((⟨0, 60000, 120000⟩ : PlotTimes).dataInterval : ℚ)
                    - ((⟨0, 60000, 120000⟩ : PlotTimes).plotInterval : ℚ)) / 100
                + (((⟨0, 60000, 120000⟩ : PlotTimes).dataInterval : ℚ)
                    - ((⟨0, 60000, 120000⟩ : PlotTimes).plotInterval : ℚ))
                  / (((1000 : Int) : ℚ) - ((0 : Int) : ℚ))
                + 2 :=
  rightEdge_coverage 0 1000 ⟨0, 60000, 120000⟩ (by decide) (by decide) (by decide)
    (by decide) (by decide)

/-! ## Maps and connections -/

theorem qmapCount_insert {K V : Type} [DecidableEq K] (m : List (K × V)) (k : K) (v : V) :
    qmapCount (qmapInsert m k v) k = 1 := by
  unfold qmapCount qmapInsert
  rw [List.countP_append, List.countP_filter]
  simp

theorem qmapValue_insert {K V : Type} [DecidableEq K] (m : List (K × V)) (k : K) (v : V) :
    qmapValue (qmapInsert m k v) k = some v := by
  unfold qmapValue qmapInsert
  have h : ∀ l : List (K × V), (∀ e ∈ l, e.1 ≠ k) →
      (l ++ [(k, v)]).find? (fun e => decide (e.1 = k)) = some (k, v) := by
    intro l
    induction l with
    | nil => intro _; simp
    | cons a l ih =>
      intro hl
      have ha : a.1 ≠ k := hl a (List.mem_cons_self _ _)
      rw [List.cons_append, List.find?_cons_of_neg _ (by simpa using ha)]
      exact ih (fun e he => hl e (List.mem_cons_of_mem _ he))
  rw [h _ (fun e he => by simpa using (List.mem_filter.mp he).2)]
  rfl

theorem setText_keys (m : List (String × String)) (k s : String) :
    (setText m k s).map Prod.fst = m.map Prod.fst := by
  unfold setText
  rw [List.map_map]
  apply List.map_congr_left
  intro e _
  by_cases h : e.1 = k <;> simp [h]

theorem qmapCount_eq_count_keys {K V : Type} [DecidableEq K] (m : List (K × V)) (k : K) :
    qmapCount m k = (m.map Prod.fst).count k := by
  unfold qmapCount
  rw [List.count, List.countP_map]
  congr 1

theorem qmapCount_setText (m : List (String × String)) (k s c : String) :
    qmapCount (setText m k s) c = qmapCount m c := by
  rw [qmapCount_eq_count_keys, qmapCount_eq_count_keys, setText_keys]

theorem qmapValue_isSome_iff {K V : Type} [DecidableEq K] (m : List (K × V)) (k : K) :
    (qmapValue m k).isSome = true ↔ k ∈ m.map Prod.fst := by
  unfold qmapValue
  rw [Option.isSome_map', List.find?_isSome]
  simp

theorem qmapValue_setText_isSome (m : List (String × String)) (k s c : String) :
    (qmapValue (setText m k s) c).isSome = (qmapValue m c).isSome := by
  rw [Bool.eq_iff_iff, qmapValue_isSome_iff, qmapValue_isSome_iff, setText_keys]

theorem connect_fold (cs : List Connection) (id : Int) :
    activePlotWires.foldl (fun cs wire => connect cs ⟨wire, id⟩) cs
      = cs ++ activePlotWires.map (fun wire => (⟨wire, id⟩ : Connection)) := by
  simp [activePlotWires, connect]

theorem disconnect_fold (cs : List Connection) (id : Int) :
    activePlotWires.foldl (fun cs wire => disconnect cs ⟨wire, id⟩) cs
      = cs.filter (fun d => !(decide (d.plotId = id) && decide (d.wire ∈ activePlotWires))) := by
  simp only [activePlotWires, List.foldl, disconnect, List.filter_filter]
  apply List.filter_congr
  rintro ⟨wire, pid⟩ _
  by_cases hp : pid = id
  · subst hp
    cases wire <;> simp
  · simp [hp]

/-! ## What the operations leave unchanged -/

theorem getPlot_fields {Plot : Type} (ops : Collaborators Plot) (w : Widget Plot) (id : Int) :
    curveList (getPlot ops w id) = curveList w ∧ logState (getPlot ops w id) = logState w
      ∧ (getPlot ops w id).connections = w.connections
      ∧ (getPlot ops w id).activePlot = w.activePlot := by
  unfold getPlot
  split_ifs <;> simp [curveList, logState]

theorem updatePlot_fields {Plot : Type} (w : Widget Plot) (id : Int) (f : Plot → Plot) :
    curveList (updatePlot w id f) = curveList w ∧ logState (updatePlot w id f) = logState w
      ∧ (updatePlot w id f).connections = w.connections
      ∧ (updatePlot w id f).activePlot = w.activePlot := by
  simp [updatePlot, curveList, logState]

theorem setAverageWindow_fields {Plot : Type} (ops : Collaborators Plot) (w : Widget Plot)
    (n : Int) :
    curveList (setAverageWindow ops w n) = curveList w
      ∧ logState (setAverageWindow ops w n) = logState w
      ∧ (setAverageWindow ops w n).connections = w.connections
      ∧ (setAverageWindow ops w n).activePlot = w.activePlot := by
  unfold setAverageWindow
  split_ifs
  · cases h : w.activePlot with
    | none => simp [h]
    | some id => simpa [h] using updatePlot_fields w id _
  · simp

theorem averageSpinBox_setValue_fields {Plot : Type} (ops : Collaborators Plot)
    (w : Widget Plot) (n : Int) :
    curveList (averageSpinBox_setValue ops w n) = curveList w
      ∧ logState (averageSpinBox_setValue ops w n) = logState w
      ∧ (averageSpinBox_setValue ops w n).connections = w.connections
      ∧ (averageSpinBox_setValue ops w n).activePlot = w.activePlot := by
  unfold averageSpinBox_setValue
  simp only []
  split_ifs
  · simp
  · exact setAverageWindow_fields ops _ _

theorem removeCurrentPlot_fields {Plot : Type} (ops : Collaborators Plot) (w : Widget Plot)
    (id : Int) :
    curveList (removeCurrentPlot ops w id) = curveList w
      ∧ logState (removeCurrentPlot ops w id) = logState w := by
  obtain ⟨h1, h2, -, -⟩ := getPlot_fields ops w id
  unfold removeCurrentPlot
  cases h : w.activePlot with
  | none => simpa [curveList, logState] using And.intro h1 h2
  | some c => simp [curveList, logState, h]

theorem addNewPlot_fields {Plot : Type} (ops : Collaborators Plot) (w : Widget Plot)
    (id : Int) :
    curveList (addNewPlot ops w id) = curveList w
      ∧ logState (addNewPlot ops w id) = logState w := by
  obtain ⟨h1, h2, -, -⟩ := getPlot_fields ops w id
  unfold addNewPlot
  simp only []
  obtain ⟨a1, a2, -, -⟩ := averageSpinBox_setValue_fields ops
    (updatePlot { (getPlot ops w id) with activePlot := some id, plotContainer := some id } id
      (fun pl => ops.setAutoScroll pl true))
    (ops.getAverageWindow (plotAt ops
      (updatePlot { (getPlot ops w id) with activePlot := some id, plotContainer := some id } id
        (fun pl => ops.setAutoScroll pl true)) id))
  obtain ⟨u1, u2, -, -⟩ := updatePlot_fields
    { (getPlot ops w id) with activePlot := some id, plotContainer := some id } id
      (fun pl => ops.setAutoScroll pl true)
  constructor
  · simp only [curveList] at a1 u1 h1 ⊢
    rw [a1, u1]
    exact h1
  · simp only [logState] at a2 u2 h2 ⊢
    rw [a2, u2]
    exact h2

theorem setActivePlot_fields {Plot : Type} (ops : Collaborators Plot) (w : Widget Plot)
    (id : Int) :
    curveList (setActivePlot ops w id) = curveList w
      ∧ logState (setActivePlot ops w id) = logState w := by
  unfold setActivePlot
  split_ifs
  · obtain ⟨a1, a2⟩ := addNewPlot_fields ops (removeCurrentPlot ops w id) id
    obtain ⟨r1, r2⟩ := removeCurrentPlot_fields ops w id
    exact ⟨a1.trans r1, a2.trans r2⟩
  · exact ⟨rfl, rfl⟩

theorem appendToPlot_fields {Plot : Type} (ops : Collaborators Plot) (w : Widget Plot)
    (uasId : Int) (curve : String) (value : ℚ) (usec : Nat) :
    curveList (appendToPlot ops w uasId curve value usec) = curveList w
      ∧ logState (appendToPlot ops w uasId curve value usec) = logState w := by
  obtain ⟨g1, g2, -, -⟩ := getPlot_fields ops w uasId
  obtain ⟨u1, u2, -, -⟩ := updatePlot_fields (getPlot ops w uasId) uasId
    (fun pl => ops.appendData pl curve usec value)
  unfold appendToPlot
  simp only []
  split_ifs
  · obtain ⟨s1, s2⟩ := setActivePlot_fields ops
      (updatePlot (getPlot ops w uasId) uasId (fun pl => ops.appendData pl curve usec value))
      uasId
    exact ⟨s1.trans (u1.trans g1), s2.trans (u2.trans g2)⟩
  · exact ⟨u1.trans g1, u2.trans g2⟩

theorem addCurve_fields {Plot : Type} (ops : Collaborators Plot) (w : Widget Plot)
    (uasid : Int) (curve : String) :
    (addCurve ops w uasid curve).curveLabels = qmapInsert w.curveLabels curve "0"
      ∧ (addCurve ops w uasid curve).curveMeans = qmapInsert w.curveMeans curve "0"
      ∧ (addCurve ops w uasid curve).curveMedians = qmapInsert w.curveMedians curve ""
      ∧ (∃ row : CurveItem, row.objectName = curve ∧ row.checked = false
          ∧ (addCurve ops w uasid curve).curvesWidgetLayout = w.curvesWidgetLayout ++ [row])
      ∧ logState (addCurve ops w uasid curve) = logState w
      ∧ (addCurve ops w uasid curve).connections
          = w.connections ++ [⟨Wire.curveVisible_setVisible, uasid⟩]
      ∧ (addCurve ops w uasid curve).activePlot = w.activePlot := by
  obtain ⟨g1, g2, g3, g4⟩ := getPlot_fields ops w uasid
  simp only [curveList, logState, Prod.mk.injEq] at g1 g2
  obtain ⟨gl, gm, gd, gr⟩ := g1
  obtain ⟨gg, gf⟩ := g2
  simp only [addCurve, createCurveItem, updatePlot, connect, logState, gl, gm, gd, gr, gg, gf,
    g3, g4, true_and, and_true, and_self]
  exact ⟨_, rfl, rfl, rfl⟩

theorem logData_fields {Plot : Type} (ops : Collaborators Plot) (w : Widget Plot)
    (uasId : Int) (curve : String) (value : ℚ) (usec : Nat) :
    curveList (logData ops w uasId curve value usec) = curveList w
      ∧ (logData ops w uasId curve value usec).connections = w.connections
      ∧ (logData ops w uasId curve value usec).activePlot = w.activePlot := by
  unfold logData
  split_ifs <;> simp [curveList]

theorem updateCurveList_logState {Plot : Type} (ops : Collaborators Plot) (w : Widget Plot)
    (uasId : Int) (curve : String) (value : ℚ) (usec : Nat) :
    logState (updateCurveList ops w uasId curve value usec) = logState w := by
  obtain ⟨-, a2⟩ := appendToPlot_fields ops w uasId curve value usec
  unfold updateCurveList
  simp only []
  split_ifs
  · obtain ⟨-, -, -, -, c5, -, -⟩ :=
      addCurve_fields ops (appendToPlot ops w uasId curve value usec) uasId curve
    simp only [logState] at c5 a2 ⊢
    rw [c5, a2]
  · simp only [logState] at a2 ⊢
    rw [a2]

/-- The first sample of a curve without a label: the labels are entered and one row is
added. -/
theorem updateCurveList_new {Plot : Type} (ops : Collaborators Plot) (w : Widget Plot)
    (uasId : Int) (curve : String) (value : ℚ) (usec : Nat)
    (hnew : qmapValue w.curveLabels curve = none) :
    ∃ row : CurveItem, row.objectName = curve ∧ row.checked = false
      ∧ curveRows (updateCurveList ops w uasId curve value usec)
        = ((qmapInsert w.curveLabels curve "0").map Prod.fst,
           (qmapInsert w.curveMeans curve "0").map Prod.fst,
           (qmapInsert w.curveMedians curve "").map Prod.fst,
           w.curvesWidgetLayout ++ [row]) := by
  obtain ⟨a1, -⟩ := appendToPlot_fields ops w uasId curve value usec
  simp only [curveList, Prod.mk.injEq] at a1
  obtain ⟨al, am, ad, ar⟩ := a1
  obtain ⟨c1, c2, c3, ⟨row, hrow, hchk, c4⟩, -, -, -⟩ :=
    addCurve_fields ops (appendToPlot ops w uasId curve value usec) uasId curve
  refine ⟨row, hrow, hchk, ?_⟩
  unfold updateCurveList
  simp only []
  rw [if_pos (by rw [al, hnew]; rfl)]
  simp only [curveRows, setText_keys, c1, c2, c3, c4, al, am, ad, ar]

/-- A sample of a curve that has a label: only the texts of the labels change. -/
theorem updateCurveList_known {Plot : Type} (ops : Collaborators Plot) (w : Widget Plot)
    (uasId : Int) (curve : String) (value : ℚ) (usec : Nat)
    (hold : (qmapValue w.curveLabels curve).isSome = true) :
    curveRows (updateCurveList ops w uasId curve value usec) = curveRows w := by
  obtain ⟨a1, -⟩ := appendToPlot_fields ops w uasId curve value usec
  simp only [curveList, Prod.mk.injEq] at a1
  obtain ⟨al, am, ad, ar⟩ := a1
  unfold updateCurveList
  simp only []
  rw [if_neg (by
    rw [al]
    cases h : qmapValue w.curveLabels curve with
    | none => rw [h] at hold; exact absurd hold (by decide)
    | some x => simp)]
  simp only [curveRows, setText_keys, al, am, ad, ar]

theorem appendData_curveRows {Plot : Type} (ops : Collaborators Plot) (w : Widget Plot)
    (uasId : Int) (curve : String) (value : ℚ) (usec : Nat) :
    curveRows (appendData ops w uasId curve value usec)
      = curveRows (updateCurveList ops w uasId curve value usec) := by
  obtain ⟨h, -, -⟩ :=
    logData_fields ops (updateCurveList ops w uasId curve value usec) uasId curve value usec
  simp only [curveList, Prod.mk.injEq] at h
  obtain ⟨hl, hm, hd, hr⟩ := h
  unfold appendData
  simp only [curveRows, hl, hm, hd, hr]

/-! ## Curve list and log -/

/-- C8: for every widget state, source id and curve name without a label, two calls of
`appendData` with that curve name (any values and timestamps) create exactly one row:
afterwards `curveLabels`, `curveMeans` and `curveMedians` each hold exactly one entry for
the name, exactly one row, the one of the curve, was added to the curve list, and the
second call left the entries of the maps and the rows as the first call made them (it
changed the texts of the labels only). -/
theorem curve_created_once {Plot : Type} (ops : Collaborators Plot) (w : Widget Plot)
    (uasId : Int) (curve : String) (v1 v2 : ℚ) (t1 t2 : Nat)
    (hnew : qmapValue w.curveLabels curve = none) :
    qmapCount (appendData ops (appendData ops w uasId curve v1 t1) uasId curve v2 t2).curveLabels
        curve = 1
      ∧ qmapCount
          (appendData ops (appendData ops w uasId curve v1 t1) uasId curve v2 t2).curveMeans
          curve = 1
      ∧ qmapCount
          (appendData ops (appendData ops w uasId curve v1 t1) uasId curve v2 t2).curveMedians
          curve = 1
      ∧ (∃ row : CurveItem, row.objectName = curve
          ∧ (appendData ops (appendData ops w uasId curve v1 t1) uasId curve v2
              t2).curvesWidgetLayout = w.curvesWidgetLayout ++ [row])
      ∧ curveRows (appendData ops (appendData ops w uasId curve v1 t1) uasId curve v2 t2)
          = curveRows (appendData ops w uasId curve v1 t1) := by
  obtain ⟨row, hrow, -, h1⟩ := updateCurveList_new ops w uasId curve v1 t1 hnew
  rw [← appendData_curveRows] at h1
  have hsome : (qmapValue (appendData ops w uasId curve v1 t1).curveLabels curve).isSome
      = true := by
    rw [qmapValue_isSome_iff]
    have : (appendData ops w uasId curve v1 t1).curveLabels.map Prod.fst
        = (qmapInsert w.curveLabels curve "0").map Prod.fst := by
      simpa [curveRows] using congrArg Prod.fst h1
    rw [this, ← qmapValue_isSome_iff, qmapValue_insert]
    rfl
  have h2 := updateCurveList_known ops (appendData ops w uasId curve v1 t1) uasId curve v2 t2
    hsome
  rw [← appendData_curveRows] at h2
  have h3 := h2.trans h1
  simp only [curveRows, Prod.mk.injEq] at h3
  obtain ⟨kl, km, kd, kr⟩ := h3
  refine ⟨?_, ?_, ?_, ⟨row, hrow, kr⟩, h2⟩
  · rw [qmapCount_eq_count_keys, kl, ← qmapCount_eq_count_keys, qmapCount_insert]
  · rw [qmapCount_eq_count_keys, km, ← qmapCount_eq_count_keys, qmapCount_insert]
  · rw [qmapCount_eq_count_keys, kd, ← qmapCount_eq_count_keys, qmapCount_insert]

/-- C8 (witness): two samples of the new curve `roll` of source `1`, appended to the
widget as its constructor leaves it. -/
theorem curve_created_once_witness :
    qmapCount (appendData recordingPlot
        (appendData recordingPlot (Widget.initial RecordingPlot) 1 "roll" (1 / 2) 10)
        1 "roll" (3 / 4) 20).curveLabels "roll" = 1
      ∧ qmapCount (appendData recordingPlot
          (appendData recordingPlot (Widget.initial RecordingPlot) 1 "roll" (1 / 2) 10)
          1 "roll" (3 / 4) 20).curveMeans "roll" = 1
      ∧ qmapCount (appendData recordingPlot
          (appendData recordingPlot (Widget.initial RecordingPlot) 1 "roll" (1 / 2) 10)
          1 "roll" (3 / 4) 20).curveMedians "roll" = 1
      ∧ (∃ row : CurveItem, row.objectName = "roll"
          ∧ (appendData recordingPlot
              (appendData recordingPlot (Widget.initial RecordingPlot) 1 "roll" (1 / 2) 10)
              1 "roll" (3 / 4) 20).curvesWidgetLayout
            = (Widget.initial RecordingPlot).curvesWidgetLayout ++ [row])
      ∧ curveRows (appendData recordingPlot
          (appendData recordingPlot (Widget.initial RecordingPlot) 1 "roll" (1 / 2) 10)
          1 "roll" (3 / 4) 20)
        = curveRows
            (appendData recordingPlot (Widget.initial RecordingPlot) 1 "roll" (1 / 2) 10) :=
  curve_created_once recordingPlot (Widget.initial RecordingPlot) 1 "roll" (1 / 2) (3 / 4)
    10 20 rfl

/-- C9: a call `appendData(uasId, curve, value, usec)` writes the log file exactly when
logging is active and the curve is visible in the plot of `uasId` when the check of line
198 is made; then the calls made on the file are one `write` of the line made of `usec`,
`uasId`, the curve name and the value, in this order, separated by single tabs and ended
by one newline (in Latin-1), followed by one `flush`; otherwise no call is made on the
file. -/
theorem appendData_logs_visible_sample {Plot : Type} (ops : Collaborators Plot)
    (w : Widget Plot) (uasId : Int) (curve : String) (value : ℚ) (usec : Nat) :
    ((w.logging = true
        ∧ ops.isVisible (plotAt ops (updateCurveList ops w uasId curve value usec) uasId) curve
            = true) →
      (appendData ops w uasId curve value usec).logFile
        = w.logFile
          ++ [LogCall.write (toLatin1 (String.intercalate "\t"
                [toString usec, toString uasId, curve, ops.number value] ++ "\n")),
              LogCall.flush])
    ∧ (¬ (w.logging = true
        ∧ ops.isVisible (plotAt ops (updateCurveList ops w uasId curve value usec) uasId) curve
            = true) →
      (appendData ops w uasId curve value usec).logFile = w.logFile) := by
  have hs := updateCurveList_logState ops w uasId curve value usec
  simp only [logState, Prod.mk.injEq] at hs
  obtain ⟨hg, hf⟩ := hs
  constructor
  · rintro ⟨h1, h2⟩
    unfold appendData logData
    rw [if_pos (by rw [hg]; exact h1), if_pos h2]
    simp only [hf, logLine]
    rfl
  · intro h
    unfold appendData logData
    by_cases h1 : w.logging = true
    · have h2 : ¬ ops.isVisible
          (plotAt ops (updateCurveList ops w uasId curve value usec) uasId) curve = true :=
        fun h2 => h ⟨h1, h2⟩
      rw [if_pos (by rw [hg]; exact h1), if_neg h2, hf]
    · rw [if_neg (by rw [hg]; exact h1), hf]

/-! ## Wiring of the active plot -/

theorem plotWiring_map (id : Int) :
    (activePlotWires.map (fun wire => (⟨wire, id⟩ : Connection))).filter
        (fun c => c.wire ∈ activePlotWires)
      = activePlotWires.map (fun wire => (⟨wire, id⟩ : Connection)) := by
  rw [List.filter_eq_self]
  intro c hc
  obtain ⟨wire, hw, rfl⟩ := List.mem_map.mp hc
  simpa using hw

theorem removeCurrentPlot_connections {Plot : Type} (ops : Collaborators Plot)
    (w : Widget Plot) (uasId : Int) :
    (removeCurrentPlot ops w uasId).activePlot = some (w.activePlot.getD uasId)
      ∧ (removeCurrentPlot ops w uasId).connections
          = w.connections.filter (fun d =>
              !(decide (d.plotId = w.activePlot.getD uasId)
                && decide (d.wire ∈ activePlotWires))) := by
  obtain ⟨-, -, g3, -⟩ := getPlot_fields ops w uasId
  unfold removeCurrentPlot
  cases h : w.activePlot with
  | none => simp [disconnect_fold, g3]
  | some c => simp [disconnect_fold, h]

theorem removeCurrentPlot_unwired {Plot : Type} (ops : Collaborators Plot) (w : Widget Plot)
    (uasId : Int) (hw : WiredToActivePlot w) :
    plotWiring (removeCurrentPlot ops w uasId) = [] := by
  obtain ⟨-, hc⟩ := removeCurrentPlot_connections ops w uasId
  unfold plotWiring
  rw [hc, List.filter_filter, List.filter_eq_nil_iff]
  intro d hd
  unfold WiredToActivePlot plotWiring at hw
  cases h : w.activePlot with
  | none =>
    rw [h] at hw
    have := List.filter_eq_nil_iff.mp hw d hd
    simp only [this, Bool.false_and]
    simp
  | some c =>
    rw [h] at hw
    by_cases hwire : d.wire ∈ activePlotWires
    · have hmem : d ∈ w.connections.filter (fun c => c.wire ∈ activePlotWires) :=
        List.mem_filter.mpr ⟨hd, by simpa using hwire⟩
      rw [hw] at hmem
      obtain ⟨wire, -, rfl⟩ := List.mem_map.mp hmem
      simp [hwire]
    · simp [hwire]

theorem addNewPlot_connections {Plot : Type} (ops : Collaborators Plot) (w : Widget Plot)
    (uasId : Int) :
    (addNewPlot ops w uasId).activePlot = some uasId
      ∧ (addNewPlot ops w uasId).connections
          = w.connections ++ activePlotWires.map (fun wire => (⟨wire, uasId⟩ : Connection)) := by
  obtain ⟨-, -, g3, -⟩ := getPlot_fields ops w uasId
  unfold addNewPlot
  simp only []
  obtain ⟨-, -, a3, a4⟩ := averageSpinBox_setValue_fields ops
    (updatePlot { (getPlot ops w uasId) with activePlot := some uasId,
                                              plotContainer := some uasId } uasId
      (fun pl => ops.setAutoScroll pl true))
    (ops.getAverageWindow (plotAt ops
      (updatePlot { (getPlot ops w uasId) with activePlot := some uasId,
                                                plotContainer := some uasId } uasId
        (fun pl => ops.setAutoScroll pl true)) uasId))
  obtain ⟨-, -, u3, u4⟩ := updatePlot_fields
    { (getPlot ops w uasId) with activePlot := some uasId, plotContainer := some uasId } uasId
      (fun pl => ops.setAutoScroll pl true)
  constructor
  · show (averageSpinBox_setValue ops _ _).activePlot = some uasId
    rw [a4, u4]
  · simp only [connect_fold]
    rw [a3, u3, g3]

theorem setActivePlot_wired {Plot : Type} (ops : Collaborators Plot) (w : Widget Plot)
    (uasId : Int) (hw : WiredToActivePlot w) :
    (setActivePlot ops w uasId).activePlot = some uasId
      ∧ plotWiring (setActivePlot ops w uasId)
          = activePlotWires.map (fun wire => (⟨wire, uasId⟩ : Connection)) := by
  unfold setActivePlot
  split_ifs with hg
  · obtain ⟨h1, h2⟩ := addNewPlot_connections ops (removeCurrentPlot ops w uasId) uasId
    refine ⟨h1, ?_⟩
    have h3 := removeCurrentPlot_unwired ops w uasId hw
    unfold plotWiring at h3 ⊢
    rw [h2, List.filter_append, h3, plotWiring_map, List.nil_append]
  · have ha : w.activePlot = some uasId := by
      by_contra hne
      exact hg (Or.inr hne)
    refine ⟨ha, ?_⟩
    unfold WiredToActivePlot at hw
    rw [hw, ha]

theorem wired_of_connections_activePlot {Plot : Type} {w w' : Widget Plot}
    (hc : plotWiring w' = plotWiring w) (ha : w'.activePlot = w.activePlot)
    (hw : WiredToActivePlot w) : WiredToActivePlot w' := by
  unfold WiredToActivePlot at hw ⊢
  rw [hc, ha, hw]

theorem appendData_wired {Plot : Type} (ops : Collaborators Plot) (w : Widget Plot)
    (uasId : Int) (curve : String) (value : ℚ) (usec : Nat) (hw : WiredToActivePlot w) :
    WiredToActivePlot (appendData ops w uasId curve value usec) := by
  -- lines 175-177
  have h3 : WiredToActivePlot (appendToPlot ops w uasId curve value usec) := by
    obtain ⟨-, -, g3, g4⟩ := getPlot_fields ops w uasId
    obtain ⟨-, -, u3, u4⟩ := updatePlot_fields (getPlot ops w uasId) uasId
      (fun pl => ops.appendData pl curve usec value)
    have h2 : WiredToActivePlot (updatePlot (getPlot ops w uasId) uasId
        (fun pl => ops.appendData pl curve usec value)) :=
      wired_of_connections_activePlot (by unfold plotWiring; rw [u3, g3]) (u4.trans g4) hw
    unfold appendToPlot
    simp only []
    split_ifs
    · obtain ⟨s1, s2⟩ := setActivePlot_wired ops _ uasId h2
      unfold WiredToActivePlot
      rw [s1, s2]
    · exact h2
  -- lines 178-185
  have h4 : WiredToActivePlot
      (if (qmapValue (appendToPlot ops w uasId curve value usec).curveLabels curve).isNone
        then addCurve ops (appendToPlot ops w uasId curve value usec) uasId curve
        else appendToPlot ops w uasId curve value usec) := by
    split_ifs
    · obtain ⟨-, -, -, -, -, c6, c7⟩ :=
        addCurve_fields ops (appendToPlot ops w uasId curve value usec) uasId curve
      refine wired_of_connections_activePlot ?_ c7 h3
      unfold plotWiring
      rw [c6, List.filter_append]
      simp [activePlotWires]
    · exact h3
  -- lines 186-203
  obtain ⟨-, l2, l3⟩ :=
    logData_fields ops (updateCurveList ops w uasId curve value usec) uasId curve value usec
  unfold appendData
  refine wired_of_connections_activePlot (by unfold plotWiring; rw [l2]) l3 ?_
  unfold updateCurveList
  exact wired_of_connections_activePlot rfl rfl h4

theorem reachable_wired {Plot : Type} (ops : Collaborators Plot) (w : Widget Plot)
    (hr : Reachable ops w) : WiredToActivePlot w := by
  induction hr with
  | initial => rfl
  | setActivePlot w uasId _ ih =>
    obtain ⟨s1, s2⟩ := setActivePlot_wired ops w uasId ih
    unfold WiredToActivePlot
    rw [s1, s2]
  | appendData w uasId curve value usec _ ih =>
    exact appendData_wired ops w uasId curve value usec ih

/-- C10: in every state reached by calls of `setActivePlot(int)` (and of `appendData`),
after `setActivePlot(uasId)` the plot of `uasId` is the active plot, every connection of
the eight kinds is a connection to this plot, and each of the eight exists exactly once;
when another plot was active, no connection of the eight kinds is left after the
disconnections of lines 413-420, before the new connections are made; and a call with the
id of the plot that is already active changes nothing. -/
theorem setActivePlot_rebinds {Plot : Type} (ops : Collaborators Plot) (w : Widget Plot)
    (uasId : Int) (hr : Reachable ops w) :
    (setActivePlot ops w uasId).activePlot = some uasId
      ∧ (∀ c ∈ (setActivePlot ops w uasId).connections,
          c.wire ∈ activePlotWires → c.plotId = uasId)
      ∧ (∀ wire ∈ activePlotWires,
          (setActivePlot ops w uasId).connections.count ⟨wire, uasId⟩ = 1)
      ∧ (w.activePlot ≠ some uasId →
          (∀ c ∈ (removeCurrentPlot ops w uasId).connections, c.wire ∉ activePlotWires)
            ∧ setActivePlot ops w uasId
                = addNewPlot ops (removeCurrentPlot ops w uasId) uasId)
      ∧ (w.activePlot = some uasId → setActivePlot ops w uasId = w) := by
  have hw := reachable_wired ops w hr
  obtain ⟨s1, s2⟩ := setActivePlot_wired ops w uasId hw
  refine ⟨s1, ?_, ?_, ?_, ?_⟩
  · intro c hc hwire
    have hmem : c ∈ plotWiring (setActivePlot ops w uasId) :=
      List.mem_filter.mpr ⟨hc, by simpa using hwire⟩
    rw [s2] at hmem
    obtain ⟨wire, -, rfl⟩ := List.mem_map.mp hmem
    rfl
  · intro wire hwire
    have hcount : (plotWiring (setActivePlot ops w uasId)).count ⟨wire, uasId⟩
        = (setActivePlot ops w uasId).connections.count ⟨wire, uasId⟩ := by
      unfold plotWiring
      exact List.count_filter (by simpa using hwire)
    rw [← hcount, s2]
    revert hwire
    cases wire <;> simp [activePlotWires]
  · intro hne
    constructor
    · intro c hc hwire
      have h3 := removeCurrentPlot_unwired ops w uasId hw
      have hmem : c ∈ plotWiring (removeCurrentPlot ops w uasId) :=
        List.mem_filter.mpr ⟨hc, by simpa using hwire⟩
      rw [h3] at hmem
      exact absurd hmem (List.not_mem_nil _)
    · unfold setActivePlot
      rw [if_pos (Or.inr hne)]
  · intro heq
    unfold setActivePlot
    rw [if_neg]
    rintro (h | h)
    · rw [heq] at h; exact absurd h (by simp)
    · exact h heq

/-- C10 (witness): the switch from the plot of source `1` to the plot of source `2`. -/
theorem setActivePlot_rebinds_witness :
    (setActivePlot recordingPlot
        (setActivePlot recordingPlot (Widget.initial RecordingPlot) 1) 2).activePlot = some 2
      ∧ (∀ c ∈ (setActivePlot recordingPlot
            (setActivePlot recordingPlot (Widget.initial RecordingPlot) 1) 2).connections,
          c.wire ∈ activePlotWires → c.plotId = 2)
      ∧ (∀ wire ∈ activePlotWires,
          (setActivePlot recordingPlot
            (setActivePlot recordingPlot (Widget.initial RecordingPlot) 1) 2).connections.count
              ⟨wire, 2⟩ = 1)
      ∧ ((setActivePlot recordingPlot (Widget.initial RecordingPlot) 1).activePlot ≠ some 2 →
          (∀ c ∈ (removeCurrentPlot recordingPlot
              (setActivePlot recordingPlot (Widget.initial RecordingPlot) 1) 2).connections,
            c.wire ∉ activePlotWires)
            ∧ setActivePlot recordingPlot
                (setActivePlot recordingPlot (Widget.initial RecordingPlot) 1) 2
              = addNewPlot recordingPlot
                  (removeCurrentPlot recordingPlot
                    (setActivePlot recordingPlot (Widget.initial RecordingPlot) 1) 2) 2)
      ∧ ((setActivePlot recordingPlot (Widget.initial RecordingPlot) 1).activePlot = some 2 →
          setActivePlot recordingPlot
              (setActivePlot recordingPlot (Widget.initial RecordingPlot) 1) 2
            = setActivePlot recordingPlot (Widget.initial RecordingPlot) 1) :=
  setActivePlot_rebinds recordingPlot
    (setActivePlot recordingPlot (Widget.initial RecordingPlot) 1) 2
    (Reachable.setActivePlot _ 1 Reachable.initial)


/-! ## Lock and notification -/

/-- The overload `setPlotWindowPosition(quint64)` releases the lock before it emits. -/
theorem emitsWhileLocked_quint64 (MIN MAX : Int) (p : PlotTimes) (position : Nat) :
    emitsWhileLocked false (setPlotWindowPosition_quint64 MIN MAX p position) = false := by
  simp [setPlotWindowPosition_quint64, emitsWhileLocked]

/-- The overload `setPlotWindowPosition(int)` emits while it holds the lock on every path
that emits, which is every path that does not enable auto-follow. -/
theorem emitsWhileLocked_int (MIN MAX : Int) (p : PlotTimes) (v : Int) :
    emitsWhileLocked false (setPlotWindowPosition_int MIN MAX p v)
      = !decide (atRightEdge MIN MAX v) := by
  unfold setPlotWindowPosition_int
  split_ifs with h <;> simp [emitsWhileLocked, h]

/-- C11 (failing input): with `MIN = 0`, `MAX = 1000`, `minTime = 0`,
`plotInterval = 60000` and `dataInterval = 120000` the call `setPlotWindowPosition(500)` of
the `int` overload locks, disables auto-follow, emits `plotWindowPositionUpdated(90000)`
and only then unlocks: the notification is emitted while the lock is held. -/
theorem setPlotWindowPosition_int_emits_while_locked :
    setPlotWindowPosition_int 0 1000 ⟨0, 60000, 120000⟩ 500
        = [Event.lockForWrite, Event.setAutoScroll false,
           Event.plotWindowPositionUpdated_quint64 90000, Event.unlock]
      ∧ emitsWhileLocked false (setPlotWindowPosition_int 0 1000 ⟨0, 60000, 120000⟩ 500)
          = true := by
  have hna : ¬ atRightEdge 0 1000 500 :=
    not_atRightEdge_of_le (by decide) (by decide) (by decide) (by decide) (by decide)
      (by decide)
  constructor
  · unfold setPlotWindowPosition_int
    simp only []
    rw [if_neg hna, rightPosition_eval_500]
    rfl
  · rw [emitsWhileLocked_int]
    simp [hna]

end LinechartWidget
